import Mathlib

/-!
Shallow embedding of the `oci-mcp-app` core pipeline
(`src/core/analyzer.py`, `src/core/provisioner.py`, `src/api/router.py`)
and proofs about its specified behaviour.

Conventions of the embedding:
* Python dicts with a fixed key set become structures; keys that are only
  conditionally inserted become `Option` fields (absent = `none`).
* `re.search(pattern, text, re.IGNORECASE)` is modelled by a small
  Brzozowski-derivative regex matcher run over the lowercased character
  list of the text; each Python pattern is transcribed into a `Rex` value.
* Machine floats used for cost/progress arithmetic are modelled as `ℚ`
  (the program only multiplies/divides small decimal literals).
* Wall-clock timestamps (`started_at`, `estimated_completion`,
  `time_created`) and values derived from `uuid.uuid4()` / `time.sleep`
  are nondeterministic environment effects and are left out of the state.
* Exceptions are modelled by `Except`.
-/

namespace OciMcp

/-! ## Regex engine (model of `re.search`) -/

/-- Regular expressions, just rich enough for the patterns in
`analyzer.py`: literals, a character class, alternation, concatenation,
Kleene star. -/
inductive Rex where
  | void : Rex
  | eps : Rex
  | lit : List Char → Rex
  | cls : (Char → Bool) → Rex
  | alt : Rex → Rex → Rex
  | seqr : Rex → Rex → Rex
  | star : Rex → Rex

/-- Does the regex accept the empty string? -/
def Rex.nullable : Rex → Bool
  | .void => false
  | .eps => true
  | .lit s => s.isEmpty
  | .cls _ => false
  | .alt a b => a.nullable || b.nullable
  | .seqr a b => a.nullable && b.nullable
  | .star _ => true

/-- Smart sequencing (collapses the empty language). -/
def Rex.mkSeq : Rex → Rex → Rex
  | .void, _ => .void
  | a, b =>
    match b with
    | .void => .void
    | _ => .seqr a b

/-- Smart alternation (collapses the empty language). -/
def Rex.mkAlt : Rex → Rex → Rex
  | .void, b => b
  | a, b =>
    match b with
    | .void => a
    | _ => .alt a b

/-- Brzozowski derivative by one character. -/
def Rex.deriv : Rex → Char → Rex
  | .void, _ => .void
  | .eps, _ => .void
  | .lit [], _ => .void
  | .lit (c :: cs), d => if c = d then .lit cs else .void
  | .cls p, d => if p d then .eps else .void
  | .alt a b, d => mkAlt (a.deriv d) (b.deriv d)
  | .seqr a b, d =>
    if a.nullable then mkAlt (mkSeq (a.deriv d) b) (b.deriv d)
    else mkSeq (a.deriv d) b
  | .star a, d => mkSeq (a.deriv d) (.star a)

/-- Does some (possibly empty) prefix of `cs` match `r`? -/
def Rex.matchesPref : Rex → List Char → Bool
  | r, [] => r.nullable
  | r, c :: cs => r.nullable || (r.deriv c).matchesPref cs

/-- Model of `re.search`: does any substring of `cs` match `r`?
The caller is responsible for lowercasing (models `re.IGNORECASE`). -/
def Rex.research : Rex → List Char → Bool
  | r, [] => r.nullable
  | r, c :: cs => r.matchesPref (c :: cs) || r.research cs

/-- String literal regex. -/
def rlit (s : String) : Rex := .lit s.data

/-- Alternation of a list of regexes (Python `(a|b|c)`). -/
def ralts : List Rex → Rex
  | [] => .void
  | [r] => r
  | r :: rs => .alt r (ralts rs)

/-- Python `\s` character class. -/
def isPySpace (c : Char) : Bool :=
  c = ' ' || c = '\t' || c = '\n' || c = '\r' || c = '\x0b' || c = '\x0c'

/-- Python `\s+`. -/
def wsPlus : Rex := .seqr (.cls isPySpace) (.star (.cls isPySpace))

/-- Concatenation of a list of regexes. -/
def rseqs : List Rex → Rex
  | [] => .eps
  | [r] => r
  | r :: rs => .seqr r (rseqs rs)

/-- Lowercased character list of a string (models `re.IGNORECASE`
matching over the text). -/
def lowerChars (s : String) : List Char := s.data.map Char.toLower

/-! ## Data model (`api/schemas.py`) -/

/-- One entry of a Python `security_list_rules` list:
`{"protocol": p, "port": n, "source": s}`. -/
structure SecurityRule where
  protocol : String
  port : Nat
  source : String
deriving DecidableEq, Repr

/-- Values stored in duck-typed `specifications` maps. -/
inductive SpecVal where
  | nat : Nat → SpecVal
  | rat : ℚ → SpecVal
  | str : String → SpecVal
  | bool : Bool → SpecVal
  | rules : List SecurityRule → SpecVal
deriving DecidableEq, Repr

/-- `ConversationMessage` (role, content, optional timestamp). -/
structure ConversationMessage where
  role : String
  content : String
  timestamp : Option String := none
deriving DecidableEq, Repr

/-- `OCIResource`: a recommendation / confirmed resource.
`resource_type` carries the string value of the `ResourceType` enum. -/
structure OCIResource where
  resource_type : String
  name : String
  description : Option String := none
  specifications : List (String × SpecVal) := []
  estimated_cost : Option (ℚ × String) := none
  dependencies : Option (List String) := none
deriving DecidableEq, Repr

/-- `ProvisionedResource` (wall-clock and uuid-derived detail fields
omitted as nondeterministic). -/
structure ProvisionedResource where
  resource_type : String
  name : String
  ocid : String
  status : String
  details : List (String × SpecVal) := []
  access_info : List (String × SpecVal) := []
deriving DecidableEq, Repr

/-- Lookup in a `specifications` map. -/
def specFind (specs : List (String × SpecVal)) (k : String) : Option SpecVal :=
  (specs.find? (fun p => p.1 = k)).map (fun p => p.2)

/-- `specifications.get(k, default)` for string values. -/
def specGetStr (specs : List (String × SpecVal)) (k : String) (dflt : String) : String :=
  match specFind specs k with
  | some (.str s) => s
  | _ => dflt

/-- `specifications.get(k, default)` for integer values. -/
def specGetNat (specs : List (String × SpecVal)) (k : String) (dflt : Nat) : Nat :=
  match specFind specs k with
  | some (.nat n) => n
  | _ => dflt

/-! ## SignalExtractor (`analyzer.py::_extract_information`) -/

/-- The `extracted_info` dict initialised at the top of
`_extract_information`.  Fields the function never assigns
(`performance_requirements`, `security_requirements`) stay `none`. -/
structure ExtractedInfo where
  website_type : Option String := none
  expected_traffic : Option String := none
  database_needs : Option String := none
  storage_requirements : Option Nat := none
  performance_requirements : Option String := none
  budget_constraints : Option Nat := none
  security_requirements : Option String := none
  availability_requirements : Option String := none
  scaling_needs : Option String := none
  region_preferences : Option String := none
deriving DecidableEq, Repr

/-- `(static|simple)\s+(website|site|web\s+page)`. -/
def staticSiteRex : Rex :=
  rseqs [ralts [rlit "static", rlit "simple"], wsPlus,
    ralts [rlit "website", rlit "site", rseqs [rlit "web", wsPlus, rlit "page"]]]

/-- `(dynamic|interactive)\s+(website|site|web\s+application)`. -/
def dynamicSiteRex : Rex :=
  rseqs [ralts [rlit "dynamic", rlit "interactive"], wsPlus,
    ralts [rlit "website", rlit "site", rseqs [rlit "web", wsPlus, rlit "application"]]]

/-- `(e-commerce|ecommerce|online\s+store|shop)`. -/
def ecommerceRex : Rex :=
  ralts [rlit "e-commerce", rlit "ecommerce",
    rseqs [rlit "online", wsPlus, rlit "store"], rlit "shop"]

/-- `(blog|content\s+management|cms)`. -/
def blogRex : Rex :=
  ralts [rlit "blog", rseqs [rlit "content", wsPlus, rlit "management"], rlit "cms"]

/-- `(api|backend|service)`. -/
def apiRex : Rex := ralts [rlit "api", rlit "backend", rlit "service"]

/-- `website_patterns`, in the source's priority order. -/
def websitePatterns : List (Rex × String) :=
  [ (staticSiteRex, "static"), (dynamicSiteRex, "dynamic"), (ecommerceRex, "ecommerce"),
    (blogRex, "blog"), (apiRex, "api") ]

/-- `traffic_patterns`. -/
def trafficPatterns : List (Rex × String) :=
  [ (rseqs [ralts [rlit "low", rlit "small", rlit "minimal"], wsPlus,
      ralts [rlit "traffic", rlit "visitors", rlit "users"]], "low"),
    (rseqs [ralts [rlit "medium", rlit "moderate"], wsPlus,
      ralts [rlit "traffic", rlit "visitors", rlit "users"]], "medium"),
    (rseqs [ralts [rlit "high", rlit "large", rlit "heavy", rlit "substantial"], wsPlus,
      ralts [rlit "traffic", rlit "visitors", rlit "users"]], "high") ]

/-- `(database|db|data\s+storage)`. -/
def dbTriggerRex : Rex :=
  ralts [rlit "database", rlit "db", rseqs [rlit "data", wsPlus, rlit "storage"]]

/-- `(sql|relational|mysql|postgresql)`. -/
def dbRelationalRex : Rex :=
  ralts [rlit "sql", rlit "relational", rlit "mysql", rlit "postgresql"]

/-- `(nosql|mongodb|document|key-value)`. -/
def dbNosqlRex : Rex :=
  ralts [rlit "nosql", rlit "mongodb", rlit "document", rlit "key-value"]

/-- `(high\s+availability|ha|always\s+available|99\.9)`. -/
def availabilityRex : Rex :=
  ralts [rseqs [rlit "high", wsPlus, rlit "availability"], rlit "ha",
    rseqs [rlit "always", wsPlus, rlit "available"], rlit "99.9"]

/-- `(scal(e|ing|able)|grow|expand)`. -/
def scalingRex : Rex :=
  ralts [rseqs [rlit "scal", ralts [rlit "e", rlit "ing", rlit "able"]],
    rlit "grow", rlit "expand"]

/-- `region_patterns`. -/
def regionPatterns : List (Rex × String) :=
  [ (ralts [rlit "us", rseqs [rlit "united", wsPlus, rlit "states"], rlit "america"], "us"),
    (ralts [rlit "europe", rlit "eu", rlit "european"], "eu"),
    (ralts [rlit "asia", rlit "apac", rseqs [rlit "asia", wsPlus, rlit "pacific"]], "asia") ]

/-- First `(pattern, value)` pair whose pattern matches; models the
`for pattern, v in patterns: if re.search(...): ...; break` loops. -/
def firstMatchVal (pats : List (Rex × String)) (t : List Char) : Option String :=
  match pats with
  | [] => none
  | (r, v) :: rest => if r.research t then some v else firstMatchVal rest t

/-- Digits-to-number (`int(...)` on a digit run). -/
def digitsToNat (ds : List Char) : Nat :=
  ds.foldl (fun a c => a * 10 + (c.toNat - '0'.toNat)) 0

/-- Try the unit alternation `(gb|tb|gigabytes|terabytes)` as a prefix of
`cs`, in Python alternation order; returns the unit matched. -/
def unitPrefix (cs : List Char) : Option String :=
  if ("gb".data).isPrefixOf cs then some "gb"
  else if ("tb".data).isPrefixOf cs then some "tb"
  else if ("gigabytes".data).isPrefixOf cs then some "gigabytes"
  else if ("terabytes".data).isPrefixOf cs then some "terabytes"
  else none

/-- Leftmost match of `(\d+)\s*(gb|tb|gigabytes|terabytes)` over the
lowercased text, returning `int(group(1))` scaled by `1024` for TB units
(the storage-requirement extraction).  At each starting position the
maximal digit run and maximal whitespace run are taken; backtracking
inside the runs can never succeed because neither a digit nor a
whitespace character can start the unit literal. -/
def findStorageGb : List Char → Option Nat
  | [] => none
  | c :: cs =>
    if c.isDigit then
      let ds := (c :: cs).takeWhile Char.isDigit
      let rest := (c :: cs).dropWhile Char.isDigit
      let rest2 := rest.dropWhile isPySpace
      match unitPrefix rest2 with
      | some u =>
        let amount := digitsToNat ds
        some (if u = "tb" || u = "terabytes" then amount * 1024 else amount)
      | none => findStorageGb cs
    else findStorageGb cs

/-- Match the literal `l` as a prefix of `cs`, returning the remainder. -/
def stripLit (l : List Char) (cs : List Char) : Option (List Char) :=
  if l.isPrefixOf cs then some (cs.drop l.length) else none

/-- Match `\s+` as a prefix, returning the remainder. -/
def stripWsPlus (cs : List Char) : Option (List Char) :=
  match cs with
  | c :: rest => if isPySpace c then some (rest.dropWhile isPySpace) else none
  | [] => none

/-- Leftmost match of `budget\s+of\s+\$?(\d+)`, returning `int(group(1))`. -/
def findBudget : List Char → Option Nat
  | [] => none
  | c :: cs =>
    match
      (stripLit "budget".data (c :: cs)).bind fun r1 =>
      (stripWsPlus r1).bind fun r2 =>
      (stripLit "of".data r2).bind fun r3 =>
      (stripWsPlus r3).bind fun r4 =>
      let r5 := if r4.head? = some '$' then r4.drop 1 else r4
      let ds := r5.takeWhile Char.isDigit
      if ds.isEmpty then none else some (digitsToNat ds)
    with
    | some n => some n
    | none => findBudget cs

/-- The `" ".join(msg.content for msg in conversation_context)` blob. -/
def fullText (ctx : List ConversationMessage) : String :=
  String.intercalate " " (ctx.map (fun m => m.content))

/-- Embedding of `ResourceAnalyzer._extract_information`. -/
def extractInformation (ctx : List ConversationMessage) : ExtractedInfo :=
  let t := lowerChars (fullText ctx)
  { website_type := firstMatchVal websitePatterns t
    expected_traffic := firstMatchVal trafficPatterns t
    database_needs :=
      if dbTriggerRex.research t then
        if dbRelationalRex.research t then some "relational"
        else if dbNosqlRex.research t then some "nosql"
        else some "general"
      else none
    storage_requirements := findStorageGb t
    performance_requirements := none
    budget_constraints := findBudget t
    security_requirements := none
    availability_requirements :=
      if availabilityRex.research t then some "high" else none
    scaling_needs := if scalingRex.research t then some "required" else none
    region_preferences := firstMatchVal regionPatterns t }

/-! ## RequirementResolver (`analyzer.py::_determine_*_requirements`) -/

/-- The `compute_req` dict; `autoscaling`/`min_instances`/`max_instances`
are keys only inserted when scaling is required. -/
structure ComputeReq where
  instance_count : Nat
  shape : String
  ocpus : Nat
  memory_in_gbs : Nat
  autoscaling : Option Bool := none
  min_instances : Option Nat := none
  max_instances : Option Nat := none
deriving DecidableEq, Repr

/-- Embedding of `_determine_compute_requirements`. -/
def determineComputeRequirements (info : ExtractedInfo) : ComputeReq :=
  let base : ComputeReq :=
    { instance_count := 1, shape := "VM.Standard.E4.Flex", ocpus := 1, memory_in_gbs := 8 }
  let r1 :=
    if info.website_type = some "static" then
      { base with shape := "VM.Standard.E2.1.Micro", ocpus := 1, memory_in_gbs := 1 }
    else if info.website_type = some "ecommerce" then
      { base with shape := "VM.Standard.E4.Flex", ocpus := 2, memory_in_gbs := 16 }
    else base
  let r2 :=
    if info.expected_traffic = some "high" then
      { r1 with instance_count := 2, ocpus := max r1.ocpus 4,
                memory_in_gbs := max r1.memory_in_gbs 32 }
    else r1
  if info.scaling_needs = some "required" then
    { r2 with autoscaling := some true, min_instances := some r2.instance_count,
              max_instances := some (r2.instance_count * 3) }
  else r2

/-- The `network_req` dict. -/
structure NetworkReq where
  vcn_cidr : String
  subnet_cidr : String
  load_balancer : Bool
  load_balancer_shape : Option String := none
  load_balancer_min_shape : Option Nat := none
  load_balancer_max_shape : Option Nat := none
  security_list_rules : List SecurityRule := []
deriving DecidableEq, Repr

/-- Embedding of `_determine_network_requirements` (it re-resolves the
compute requirements to decide on a load balancer). -/
def determineNetworkRequirements (info : ExtractedInfo) : NetworkReq :=
  let base : NetworkReq :=
    { vcn_cidr := "10.0.0.0/16", subnet_cidr := "10.0.0.0/24", load_balancer := false }
  let compute_req := determineComputeRequirements info
  let r1 :=
    if info.expected_traffic = some "high" || compute_req.instance_count > 1 then
      { base with load_balancer := true, load_balancer_shape := some "flexible",
                  load_balancer_min_shape := some 10, load_balancer_max_shape := some 100 }
    else base
  { r1 with security_list_rules :=
      [⟨"6", 80, "0.0.0.0/0"⟩, ⟨"6", 443, "0.0.0.0/0"⟩, ⟨"6", 22, "0.0.0.0/0"⟩] }

/-- The `database_req` dict; `db_name`/`table_name` are conditional keys. -/
structure DatabaseReq where
  type : String
  workload_type : String
  storage_in_tbs : Nat
  cpu_core_count : Nat
  db_name : Option String := none
  table_name : Option String := none
deriving DecidableEq, Repr

/-- Embedding of `_determine_database_requirements` (returns `None`
when no database need was extracted). -/
def determineDatabaseRequirements (info : ExtractedInfo) : Option DatabaseReq :=
  match info.database_needs with
  | none => none
  | some kind =>
    let base : DatabaseReq :=
      { type := "autonomous", workload_type := "OLTP", storage_in_tbs := 1, cpu_core_count := 1 }
    let r1 :=
      if kind = "relational" then { base with type := "autonomous", db_name := some "OCIDB" }
      else if kind = "nosql" then { base with type := "nosql", table_name := some "OCITable" }
      else base
    some
      (if info.expected_traffic = some "high" then
        { r1 with cpu_core_count := 2, storage_in_tbs := 2 }
      else r1)

/-- The `storage_req` dict. -/
structure StorageReq where
  block_volume_size_in_gbs : Nat
  object_storage : Bool
deriving DecidableEq, Repr

/-- Embedding of `_determine_storage_requirements`.  Note the Python
truthiness test `if extracted_info["storage_requirements"]:` is false for
both `None` and `0`. -/
def determineStorageRequirements (info : ExtractedInfo) : StorageReq :=
  let base : StorageReq := { block_volume_size_in_gbs := 50, object_storage := true }
  let r1 :=
    match info.storage_requirements with
    | some a => if a = 0 then base else { base with block_volume_size_in_gbs := max 50 a }
    | none => base
  if info.website_type = some "static" then { r1 with block_volume_size_in_gbs := 50 }
  else if info.website_type = some "ecommerce" || info.website_type = some "dynamic" then
    { r1 with block_volume_size_in_gbs := max r1.block_volume_size_in_gbs 100 }
  else r1

/-- The `requirements` dict assembled by `_determine_requirements`. -/
structure Requirements where
  compute : ComputeReq
  network : NetworkReq
  database : Option DatabaseReq
  storage : StorageReq
deriving DecidableEq, Repr

/-- Embedding of `_determine_requirements`. -/
def determineRequirements (info : ExtractedInfo) : Requirements :=
  { compute := determineComputeRequirements info
    network := determineNetworkRequirements info
    database := determineDatabaseRequirements info
    storage := determineStorageRequirements info }

/-! ## RecommendationBuilder (`analyzer.py::_generate_recommendations`) -/

/-- Embedding of `_generate_recommendations`: fixed-order list of
`OCIResource` recommendations. -/
def generateRecommendations (requirements : Requirements) : List OCIResource :=
  let compute_req := requirements.compute
  let compute_resource : OCIResource :=
    { resource_type := "compute", name := "WebServer",
      description := some "Compute instance for hosting the website",
      specifications :=
        [("shape", .str compute_req.shape), ("ocpus", .nat compute_req.ocpus),
         ("memory_in_gbs", .nat compute_req.memory_in_gbs),
         ("instance_count", .nat compute_req.instance_count),
         ("image_id", .str "Oracle-Linux-8.6-2022.05.31-0")],
      estimated_cost := some (50 * compute_req.ocpus * compute_req.instance_count, "USD") }
  let network_req := requirements.network
  let network_resource : OCIResource :=
    { resource_type := "network", name := "WebsiteVCN",
      description := some "Virtual Cloud Network for the website",
      specifications :=
        [("vcn_cidr", .str network_req.vcn_cidr), ("subnet_cidr", .str network_req.subnet_cidr),
         ("security_list_rules", .rules network_req.security_list_rules)],
      estimated_cost := some (0, "USD") }
  let lbList : List OCIResource :=
    if network_req.load_balancer then
      [{ resource_type := "load_balancer", name := "WebsiteLoadBalancer",
         description := some "Load balancer for distributing traffic",
         specifications :=
           [("shape", .str (network_req.load_balancer_shape.getD "")),
            ("min_bandwidth_mbps", .nat (network_req.load_balancer_min_shape.getD 0)),
            ("max_bandwidth_mbps", .nat (network_req.load_balancer_max_shape.getD 0))],
         estimated_cost :=
           some (10 + (17 / 10000 : ℚ) * 730 * (network_req.load_balancer_min_shape.getD 0), "USD"),
         dependencies := some ["WebsiteVCN"] }]
    else []
  let dbList : List OCIResource :=
    match requirements.database with
    | some db_req =>
      [{ resource_type := "database", name := "WebsiteDB",
         description := some "Database for the website",
         specifications :=
           [("type", .str db_req.type), ("workload_type", .str db_req.workload_type),
            ("storage_in_tbs", .nat db_req.storage_in_tbs),
            ("cpu_core_count", .nat db_req.cpu_core_count)],
         estimated_cost := some (900 * db_req.cpu_core_count, "USD"),
         dependencies := some ["WebsiteVCN"] }]
    | none => []
  let storage_req := requirements.storage
  let storage_resource : OCIResource :=
    { resource_type := "storage", name := "WebsiteStorage",
      description := some "Block volume for the website",
      specifications :=
        [("size_in_gbs", .nat storage_req.block_volume_size_in_gbs), ("vpus_per_gb", .nat 10)],
      estimated_cost := some ((255 / 10000 : ℚ) * storage_req.block_volume_size_in_gbs, "USD"),
      dependencies := some ["WebServer"] }
  let bucketList : List OCIResource :=
    if storage_req.object_storage then
      [{ resource_type := "storage", name := "WebsiteBucket",
         description := some "Object storage bucket for static assets",
         specifications := [("storage_tier", .str "Standard"), ("auto_tiering", .bool true)],
         estimated_cost := some ((255 / 10000 : ℚ) * 100, "USD") }]
    else []
  [compute_resource, network_resource] ++ lbList ++ dbList ++ [storage_resource] ++ bucketList

/-- Embedding of `ResourceAnalyzer.analyze_requirements`. -/
def analyzeRequirements (ctx : List ConversationMessage) : List OCIResource :=
  generateRecommendations (determineRequirements (extractInformation ctx))

/-! ## RequestStatusStore (`provisioner.py`: `self.provisioning_requests`) -/

/-- One entry of a request state's `resources` list: a per-resource
outcome record.  Success entries carry `ocid`, failure entries carry
`error` (mirroring the two dict shapes appended in the loop). -/
structure RequestOutcome where
  name : String
  type : String
  status : String
  ocid : Option String := none
  error : Option String := none
deriving DecidableEq, Repr

/-- One `provisioning_requests[request_id]` value (timestamps omitted:
wall-clock). -/
structure RequestState where
  status : String
  resources : List RequestOutcome
  progress : ℚ
deriving DecidableEq, Repr

/-- The `provisioning_requests` dict, as an insertion-ordered
association list. -/
abbrev Store := List (String × RequestState)

/-- Dict read (`d[k]` / `k in d`). -/
def Store.get (st : Store) (rid : String) : Option RequestState :=
  (st.find? (fun p => p.1 = rid)).map (fun p => p.2)

/-- Dict write `d[k] = v` (replaces the entry in place, else appends at
the end; store keys are unique, as in the Python dict). -/
def Store.set : Store → String → RequestState → Store
  | [], rid, s => [(rid, s)]
  | p :: rest, rid, s =>
    if p.1 = rid then (rid, s) :: rest else p :: Store.set rest rid s

/-- Mutation of the entry at `rid` (`d[k]["field"] = ...`); a no-op when
the key is absent (the source only mutates keys it has initialised). -/
def Store.upd (st : Store) (rid : String) (f : RequestState → RequestState) : Store :=
  st.map (fun p => if p.1 = rid then (p.1, f p.2) else p)

/-! ## DependencyOrderer (`provisioner.py::_sort_resources_by_dependencies`) -/

/-- The error raised by the sorter: the `ValueError` for a circular
dependency (carrying the offending name), or fuel exhaustion — an
artifact of the embedding, proved unreachable below. -/
inductive SortErr where
  | cycle : String → SortErr
  | fuel : SortErr
deriving DecidableEq, Repr

/-- The message of the raised `ValueError`. -/
def SortErr.message : SortErr → String
  | .cycle n => "Circular dependency detected for " ++ n
  | .fuel => "fuel exhausted"

/-- Keys of `dependency_graph` / `resource_map`: resource names, first
occurrence kept (Python dict key order). -/
def dedupFirst : List String → List String
  | [] => []
  | x :: xs => x :: (dedupFirst xs).filter (fun y => y ≠ x)

abbrev Graph := List (String × List String)

/-- Add `d` to the dependency set of `n` (Python `set.add`). -/
def addDep (g : Graph) (n d : String) : Graph :=
  g.map (fun p =>
    if p.1 = n then (p.1, if d ∈ p.2 then p.2 else p.2 ++ [d]) else p)

/-- Embedding of the `dependency_graph` construction: one (initially
empty) entry per distinct resource name; for each resource, each declared
dependency that names an in-batch resource is added to its entry.
Python set iteration order is modelled as insertion order. -/
def buildGraph (resources : List OCIResource) : Graph :=
  let init : Graph := (dedupFirst (resources.map (fun r => r.name))).map (fun n => (n, []))
  resources.foldl
    (fun g r =>
      (r.dependencies.getD []).foldl
        (fun g d => if resources.any (fun x => x.name = d) then addDep g r.name d else g)
        g)
    init

/-- Dependency list of `n` in `g` (empty when `n` is not a key). -/
def depsOf (g : Graph) (n : String) : List String :=
  ((g.find? (fun p => p.1 = n)).map (fun p => p.2)).getD []

/-- The mutable state of the topological sort: the `visited` set and the
post-order `order` list. -/
structure VisitSt where
  visited : List String
  order : List String
deriving DecidableEq, Repr

/-- The `for dependency in dependency_graph[name]: visit(dependency)`
loop, parameterised over the visiting function (threading the state,
stopping at the first raised error). -/
def visitDepsWith (v : String → VisitSt → Except SortErr VisitSt) :
    List String → VisitSt → Except SortErr VisitSt
  | [], st => .ok st
  | d :: ds, st =>
    match v d st with
    | .error e => .error e
    | .ok st' => visitDepsWith v ds st'

/-- Embedding of the recursive `visit` closure.  `temp` is the
`temp_visited` stack (head = most recently pushed); the fuel bound is an
embedding artifact, proved sufficient below.  The membership tests are
placed before the fuel test so that a fuel of `#keys` is enough. -/
def visit (g : Graph) : Nat → String → List String → VisitSt → Except SortErr VisitSt
  | fuel, n, temp, st =>
    if n ∈ temp then .error (.cycle n)
    else if n ∈ st.visited then .ok st
    else
      match fuel with
      | 0 => .error .fuel
      | f + 1 =>
        match visitDepsWith (fun d s => visit g f d (n :: temp) s) (depsOf g n) st with
        | .error e => .error e
        | .ok st' => .ok ⟨n :: st'.visited, st'.order ++ [n]⟩

/-- The top-level `for name in dependency_graph: if name not in visited:
visit(name)` loop. -/
def visitAll (g : Graph) (fuel : Nat) (names : List String)
    (st : VisitSt) : Except SortErr VisitSt :=
  match names with
  | [] => .ok st
  | n :: rest =>
    match (if n ∈ st.visited then .ok st else visit g fuel n [] st) with
    | .error e => .error e
    | .ok st' => visitAll g fuel rest st'

/-- Name-level result of `_sort_resources_by_dependencies`: the reversal
of the post-order (`reversed(order)`). -/
def sortNames (resources : List OCIResource) : Except SortErr (List String) :=
  let g := buildGraph resources
  let names := g.map (fun p => p.1)
  match visitAll g (names.length + 1) names ⟨[], []⟩ with
  | .error e => .error e
  | .ok st => .ok st.order.reverse

/-- `resource_map[name]` (dict comprehension: the last resource with a
given name wins). -/
def resourceMapGet (resources : List OCIResource) (n : String) : Option OCIResource :=
  resources.reverse.find? (fun r => r.name = n)

/-- Embedding of `_sort_resources_by_dependencies`. -/
def sortResourcesByDependencies (resources : List OCIResource) :
    Except SortErr (List OCIResource) :=
  (sortNames resources).map (fun ns => ns.filterMap (resourceMapGet resources))

/-! ## Per-kind provisioning handlers (`provisioner.py::_provision_*`) -/

/-- ASCII lowercase of a string. -/
def lowerStr (s : String) : String := ⟨lowerChars s⟩

/-- Embedding of `_provision_resource` with its five kind handlers.
The generated OCID's random uuid suffix, the `time_created` fields and
the uuid-derived IP addresses are nondeterministic and omitted; all
deterministic fields are kept.  Unsupported kinds raise `ValueError`. -/
def provisionResourceImpl (ociRegion : String) (r : OCIResource) :
    Except String ProvisionedResource :=
  let ocid := "ocid1." ++ lowerStr r.resource_type ++ ".oc1..aaaaaaaa"
  if r.resource_type = "compute" then
    .ok { resource_type := r.resource_type, name := r.name, ocid := ocid, status := "active",
          details :=
            [("shape", .str (specGetStr r.specifications "shape" "VM.Standard.E4.Flex")),
             ("ocpus", .nat (specGetNat r.specifications "ocpus" 1)),
             ("memory_in_gbs", .nat (specGetNat r.specifications "memory_in_gbs" 8)),
             ("availability_domain", .str "AD-1"), ("fault_domain", .str "FAULT-DOMAIN-1")],
          access_info := [("hostname", .str (lowerStr r.name ++ ".example.com"))] }
  else if r.resource_type = "network" then
    .ok { resource_type := r.resource_type, name := r.name, ocid := ocid, status := "active",
          details :=
            [("vcn_cidr", .str (specGetStr r.specifications "vcn_cidr" "10.0.0.0/16")),
             ("subnet_cidr", .str (specGetStr r.specifications "subnet_cidr" "10.0.0.0/24"))] }
  else if r.resource_type = "database" then
    .ok { resource_type := r.resource_type, name := r.name, ocid := ocid, status := "active",
          details :=
            [("db_type", .str (specGetStr r.specifications "type" "autonomous")),
             ("workload_type", .str (specGetStr r.specifications "workload_type" "OLTP")),
             ("storage_in_tbs", .nat (specGetNat r.specifications "storage_in_tbs" 1))],
          access_info :=
            [("connection_string",
              .str (lowerStr r.name ++ ".adb." ++ ociRegion ++ ".oraclecloudapps.com")),
             ("admin_username", .str "ADMIN")] }
  else if r.resource_type = "storage" then
    .ok { resource_type := r.resource_type, name := r.name, ocid := ocid, status := "active",
          details :=
            [("size_in_gbs", .nat (specGetNat r.specifications "size_in_gbs" 50)),
             ("vpus_per_gb", .nat (specGetNat r.specifications "vpus_per_gb" 10))],
          access_info := [("attachment_type", .str "paravirtualized")] }
  else if r.resource_type = "load_balancer" then
    .ok { resource_type := r.resource_type, name := r.name, ocid := ocid, status := "active",
          details :=
            [("shape", .str (specGetStr r.specifications "shape" "flexible")),
             ("min_bandwidth_mbps", .nat (specGetNat r.specifications "min_bandwidth_mbps" 10)),
             ("max_bandwidth_mbps", .nat (specGetNat r.specifications "max_bandwidth_mbps" 100))],
          access_info := [("hostname", .str (lowerStr r.name ++ ".example.com"))] }
  else .error ("Unsupported resource type: " ++ r.resource_type)

/-! ## ProvisioningExecutor (`provisioner.py::provision_resources`) -/

/-- The capabilities passed to the loop: `provOne` abstracts the
per-resource provisioning step (`self._provision_resource`), which may
fail with an error message. -/
abbrev ProvFn := OCIResource → Except String ProvisionedResource

/-- The outcome record the loop appends for a resource. -/
def outcomeOf (provOne : ProvFn) (r : OCIResource) : RequestOutcome :=
  match provOne r with
  | .ok p => { name := p.name, type := p.resource_type, status := p.status, ocid := some p.ocid }
  | .error e => { name := r.name, type := r.resource_type, status := "failed", error := some e }

/-- The `for i, resource in enumerate(sorted_resources)` loop body.
Accumulates: the mutated store, the list of successfully provisioned
resources (in order), and the sequence of values written to the
`progress` field. -/
def provLoop (provOne : ProvFn) (rid : String) (total : Nat) :
    Nat → List OCIResource → Store → List ProvisionedResource → List ℚ →
    Store × List ProvisionedResource × List ℚ
  | _, [], store, acc, tr => (store, acc, tr)
  | i, r :: rs, store, acc, tr =>
    let prog : ℚ := ((i : ℚ) / (total : ℚ)) * 100
    let store1 := store.upd rid (fun s => { s with progress := prog })
    match provOne r with
    | .ok p =>
      let store2 := store1.upd rid (fun s =>
        { s with resources := s.resources ++
            [{ name := p.name, type := p.resource_type, status := p.status,
               ocid := some p.ocid }] })
      provLoop provOne rid total (i + 1) rs store2 (acc ++ [p]) (tr ++ [prog])
    | .error e =>
      let store2 := store1.upd rid (fun s =>
        { s with resources := s.resources ++
            [{ name := r.name, type := r.resource_type, status := "failed",
               error := some e }] })
      provLoop provOne rid total (i + 1) rs store2 acc (tr ++ [prog])

/-- Embedding of `ResourceProvisioner.provision_resources`, parameterised
by the per-resource capability.  Returns the raised-or-returned result,
the store after the call, and the trace of `progress` writes. -/
def provisionResources (provOne : ProvFn) (store : Store) (rid : String)
    (resources : List OCIResource) :
    Except SortErr (List ProvisionedResource) × Store × List ℚ :=
  let (store1, tr0) :=
    if (Store.get store rid).isSome then (store, ([] : List ℚ))
    else (store.set rid { status := "in_progress", resources := [], progress := 0 }, [(0 : ℚ)])
  match sortResourcesByDependencies resources with
  | .error e => (.error e, store1, tr0)
  | .ok sorted =>
    let res := provLoop provOne rid sorted.length 0 sorted store1 [] tr0
    let store3 := res.1.upd rid (fun s => { s with status := "completed", progress := 100 })
    (.ok res.2.1, store3, res.2.2 ++ [100])

/-- The response dict of `get_provisioning_status`. -/
structure StatusResponse where
  request_id : String
  status : String
  message : Option String := none
  progress : ℚ
  resources : List RequestOutcome
deriving DecidableEq, Repr

/-- Embedding of `ResourceProvisioner.get_provisioning_status`. -/
def getProvisioningStatus (store : Store) (rid : String) : StatusResponse :=
  match Store.get store rid with
  | none =>
    { request_id := rid, status := "not_found",
      message := some ("No provisioning request found with ID " ++ rid),
      progress := 0, resources := [] }
  | some s =>
    { request_id := rid, status := s.status, progress := s.progress, resources := s.resources }

/-! ## Exposed operations (`api/router.py`)

Each endpoint handler constructs a **fresh** `ResourceProvisioner()`
(whose `__init__` sets `self.provisioning_requests = {}`), so every
endpoint call starts from the empty store. -/

/-- The `/provision` endpoint: `ResourceProvisioner()` then
`provision_resources` on its (empty) instance store. -/
def provisionEndpoint (provOne : ProvFn) (rid : String) (resources : List OCIResource) :
    Except SortErr (List ProvisionedResource) × Store × List ℚ :=
  provisionResources provOne [] rid resources

/-- The `/status/{request_id}` endpoint: `ResourceProvisioner()` then
`get_provisioning_status` on its (empty) instance store. -/
def statusEndpoint (rid : String) : StatusResponse :=
  getProvisioningStatus [] rid

/-! ## Dependency graphs as relations -/

/-- Key list of a dependency graph. -/
def keysOf (g : Graph) : List String := g.map (fun p => p.1)

/-- `depRel g a b`: resource `a` declares an (in-batch) dependency on
`b`, i.e. the edge `a → b` of the dependency graph. -/
def depRel (g : Graph) (a b : String) : Prop := b ∈ depsOf g a

instance (g : Graph) (a b : String) : Decidable (depRel g a b) :=
  inferInstanceAs (Decidable (b ∈ depsOf g a))

/-- `n` lies on a dependency cycle of `g`: there is a nonempty edge walk
from `n` back to `n`. -/
def onCycle (g : Graph) (n : String) : Prop :=
  ∃ l, l ≠ [] ∧ List.Chain (depRel g) n l ∧ l.getLast? = some n

/-- The dependency graph contains a cycle. -/
def hasCycle (g : Graph) : Prop := ∃ n, onCycle g n

/-! ## Concrete scenario inputs used by the claim theorems -/

/-- Scenario 3 resource `A` (no dependencies). -/
def chainResA : OCIResource := { resource_type := "compute", name := "A" }

/-- Scenario 3 resource `B` (depends on `A`). -/
def chainResB : OCIResource :=
  { resource_type := "compute", name := "B", dependencies := some ["A"] }

/-- Scenario 3 resource `C` (depends on `B`). -/
def chainResC : OCIResource :=
  { resource_type := "compute", name := "C", dependencies := some ["B"] }

/-- Scenario 3 resource `D` (depends on `C`). -/
def chainResD : OCIResource :=
  { resource_type := "compute", name := "D", dependencies := some ["C"] }

/-- Scenario 4 resource `X` (depends on `Y`). -/
def cycResX : OCIResource :=
  { resource_type := "compute", name := "X", dependencies := some ["Y"] }

/-- Scenario 4 resource `Y` (depends on `X`). -/
def cycResY : OCIResource :=
  { resource_type := "compute", name := "Y", dependencies := some ["X"] }

/-- A plain compute resource. -/
def computeRes1 : OCIResource := { resource_type := "compute", name := "Web1" }

/-- A second plain compute resource. -/
def computeRes2 : OCIResource := { resource_type := "compute", name := "Web2" }

/-- A resource whose kind (`kubernetes`, a member of the `ResourceType`
enum) has no handler in `_provision_resource`, so provisioning it raises
`ValueError` — one of the two error classes of the batch loop. -/
def kubRes : OCIResource := { resource_type := "kubernetes", name := "Cluster" }

/-- The concrete per-resource capability: `_provision_resource` with the
configured region. -/
def implProv : ProvFn := provisionResourceImpl "us-ashburn-1"

/-- Scenario 2 conversation. -/
def c9Conversation : List ConversationMessage :=
  [{ role := "user", content := "e-commerce store database moderate traffic 500GB" }]

/-- Combined-signals input for the sizing-policy witness. -/
def c6Info : ExtractedInfo :=
  { website_type := some "ecommerce", expected_traffic := some "high",
    database_needs := some "general" }

/-- Invariant of the topological sort's state on the success path:
the post-order list has no duplicates, `visited` and `order` hold the
same names, and every ordered name's dependencies appear (strictly)
earlier in the post-order list. -/
def IInv (g : Graph) (st : VisitSt) : Prop :=
  st.order.Nodup ∧ (∀ x, x ∈ st.visited ↔ x ∈ st.order) ∧
  ∀ m ∈ st.order, ∀ d ∈ depsOf g m, d ∈ st.order ∧
    st.order.indexOf d < st.order.indexOf m

/-- Invariant of the `temp_visited` stack (head = most recent): each
entry is a dependency of the entry pushed before it. -/
def StackInv (g : Graph) (temp : List String) : Prop :=
  List.Chain' (fun a b => a ∈ depsOf g b) temp

/-! ## Store and provisioning-loop lemmas -/

theorem store_get_set (st : Store) (rid : String) (s : RequestState) :
    (st.set rid s).get rid = some s := by
  induction st with
  | nil => simp [Store.set, Store.get]
  | cons p rest ih =>
    by_cases hp : p.1 = rid
    · simp [Store.set, Store.get, hp]
    · simpa [Store.set, Store.get, List.find?_cons, hp] using ih

theorem store_get_upd (st : Store) (rid : String) (f : RequestState → RequestState) :
    (st.upd rid f).get rid = (st.get rid).map f := by
  induction st with
  | nil => rfl
  | cons p rest ih =>
    by_cases hp : p.1 = rid
    · simp [Store.upd, Store.get, List.find?_cons, hp]
    · simpa [Store.upd, Store.get, List.find?_cons, hp] using ih

/-- The loop's effect on the request's store entry: every outcome record
of the processed resources is appended, the status is untouched, and the
progress holds some final value. -/
theorem provLoop_get (provOne : ProvFn) (rid : String) (total : Nat) :
    ∀ (rs : List OCIResource) (i : Nat) (store : Store)
      (acc : List ProvisionedResource) (tr : List ℚ) (s : RequestState),
      store.get rid = some s →
      ∃ q, ((provLoop provOne rid total i rs store acc tr).1).get rid =
        some { status := s.status,
               resources := s.resources ++ rs.map (outcomeOf provOne), progress := q } := by
  intro rs
  induction rs with
  | nil =>
    intro i store acc tr s hs
    exact ⟨s.progress, by simpa [provLoop] using hs⟩
  | cons r rest ih =>
    intro i store acc tr s hs
    cases hp : provOne r with
    | ok p =>
      have h2 : ((store.upd rid (fun s => { s with progress := ((i : ℚ) / (total : ℚ)) * 100 })).upd
          rid (fun s => { s with resources := s.resources ++
            [{ name := p.name, type := p.resource_type, status := p.status,
               ocid := some p.ocid }] })).get rid =
          some { status := s.status,
                 resources := s.resources ++
                   [{ name := p.name, type := p.resource_type, status := p.status,
                      ocid := some p.ocid }],
                 progress := ((i : ℚ) / (total : ℚ)) * 100 } := by
        simp [store_get_upd, hs]
      obtain ⟨q, hq⟩ := ih (i + 1) _ (acc ++ [p]) _ _ h2
      refine ⟨q, ?_⟩
      simpa [provLoop, hp, outcomeOf] using hq
    | error e =>
      have h2 : ((store.upd rid (fun s => { s with progress := ((i : ℚ) / (total : ℚ)) * 100 })).upd
          rid (fun s => { s with resources := s.resources ++
            [{ name := r.name, type := r.resource_type, status := "failed",
               error := some e }] })).get rid =
          some { status := s.status,
                 resources := s.resources ++
                   [{ name := r.name, type := r.resource_type, status := "failed",
                      error := some e }],
                 progress := ((i : ℚ) / (total : ℚ)) * 100 } := by
        simp [store_get_upd, hs]
      obtain ⟨q, hq⟩ := ih (i + 1) _ acc _ _ h2
      refine ⟨q, ?_⟩
      simpa [provLoop, hp, outcomeOf] using hq

/-- The loop returns exactly the successfully provisioned resources, in
order. -/
theorem provLoop_acc (provOne : ProvFn) (rid : String) (total : Nat) :
    ∀ (rs : List OCIResource) (i : Nat) (store : Store)
      (acc : List ProvisionedResource) (tr : List ℚ),
      (provLoop provOne rid total i rs store acc tr).2.1 =
        acc ++ rs.filterMap (fun r => (provOne r).toOption) := by
  intro rs
  induction rs with
  | nil => intro i store acc tr; simp [provLoop]
  | cons r rest ih =>
    intro i store acc tr
    cases hp : provOne r with
    | ok p => simp [provLoop, hp, ih, Except.toOption]
    | error e => simp [provLoop, hp, ih, Except.toOption]

/-- The values the loop writes to the progress field. -/
theorem provLoop_trace (provOne : ProvFn) (rid : String) (total : Nat) :
    ∀ (rs : List OCIResource) (i : Nat) (store : Store)
      (acc : List ProvisionedResource) (tr : List ℚ),
      (provLoop provOne rid total i rs store acc tr).2.2 =
        tr ++ (List.range' i rs.length).map
          (fun (j : Nat) => ((j : ℚ) / (total : ℚ)) * 100) := by
  intro rs
  induction rs with
  | nil => intro i store acc tr; simp [provLoop]
  | cons r rest ih =>
    intro i store acc tr
    cases hp : provOne r with
    | ok p => simp [provLoop, hp, ih, List.range'_succ]
    | error e => simp [provLoop, hp, ih, List.range'_succ]

/-- Store entry after a completed (non-cyclic) provisioning call, for a
request id already present in the store: the call *appends* the new
outcomes to the entry's existing outcome list. -/
theorem provision_get_existing (provOne : ProvFn) (store : Store) (rid : String)
    (resources : List OCIResource) (l : List OCIResource) (s : RequestState)
    (h0 : store.get rid = some s)
    (hsort : sortResourcesByDependencies resources = .ok l) :
    ((provisionResources provOne store rid resources).2.1).get rid =
      some { status := "completed",
             resources := s.resources ++ l.map (outcomeOf provOne), progress := 100 } := by
  obtain ⟨q, hq⟩ := provLoop_get provOne rid l.length l 0 store [] [] s h0
  simp [provisionResources, h0, hsort, store_get_upd, hq]

/-- Store entry after a completed (non-cyclic) provisioning call for a
fresh request id. -/
theorem provision_get_fresh (provOne : ProvFn) (store : Store) (rid : String)
    (resources : List OCIResource) (l : List OCIResource)
    (h0 : store.get rid = none)
    (hsort : sortResourcesByDependencies resources = .ok l) :
    ((provisionResources provOne store rid resources).2.1).get rid =
      some { status := "completed",
             resources := l.map (outcomeOf provOne), progress := 100 } := by
  have hset : (store.set rid { status := "in_progress", resources := [], progress := 0 }).get rid =
      some { status := "in_progress", resources := [], progress := 0 } := store_get_set ..
  obtain ⟨q, hq⟩ := provLoop_get provOne rid l.length l 0 _ [] [(0 : ℚ)] _ hset
  simp [provisionResources, h0, hsort, store_get_upd, hq]

/-- The result value of a completed provisioning call. -/
theorem provision_result (provOne : ProvFn) (store : Store) (rid : String)
    (resources : List OCIResource) (l : List OCIResource)
    (hsort : sortResourcesByDependencies resources = .ok l) :
    (provisionResources provOne store rid resources).1 =
      .ok (l.filterMap (fun r => (provOne r).toOption)) := by
  by_cases h0 : (store.get rid).isSome <;>
    simp [provisionResources, h0, hsort, provLoop_acc]

/-- The progress-write trace of a completed provisioning call. -/
theorem provision_trace (provOne : ProvFn) (store : Store) (rid : String)
    (resources : List OCIResource) (l : List OCIResource)
    (hsort : sortResourcesByDependencies resources = .ok l) :
    (provisionResources provOne store rid resources).2.2 =
      (if (store.get rid).isSome then ([] : List ℚ) else [0]) ++
        (List.range' 0 l.length).map
          (fun (j : Nat) => ((j : ℚ) / (l.length : ℚ)) * 100) ++ [100] := by
  by_cases h0 : (store.get rid).isSome <;>
    simp [provisionResources, h0, hsort, provLoop_trace]

/-! ## Dependency-graph lemmas -/

theorem mem_dedupFirst {l : List String} {x : String} : x ∈ dedupFirst l ↔ x ∈ l := by
  induction l with
  | nil => simp [dedupFirst]
  | cons a l ih =>
    by_cases hxa : x = a
    · subst hxa; simp [dedupFirst]
    · simp [dedupFirst, hxa, List.mem_filter, ih]

theorem nodup_dedupFirst (l : List String) : (dedupFirst l).Nodup := by
  induction l with
  | nil => simp [dedupFirst]
  | cons a l ih =>
    simp only [dedupFirst, List.nodup_cons]
    exact ⟨by simp [List.mem_filter], ih.filter _⟩

theorem keysOf_addDep (g : Graph) (n d : String) : keysOf (addDep g n d) = keysOf g := by
  unfold keysOf addDep
  rw [List.map_map]
  congr 1
  funext p
  by_cases hp : p.1 = n <;> simp [hp]

theorem depsOf_addDep_mem {g : Graph} {n d m x : String}
    (h : x ∈ depsOf (addDep g n d) m) : x ∈ depsOf g m ∨ x = d := by
  induction g with
  | nil => simp [depsOf, addDep] at h
  | cons p rest ih =>
    have hstep : addDep (p :: rest) n d =
        (if p.1 = n then (p.1, if d ∈ p.2 then p.2 else p.2 ++ [d]) else p) ::
          addDep rest n d := rfl
    have hmask : (if p.1 = n then (p.1, if d ∈ p.2 then p.2 else p.2 ++ [d]) else p).1 = p.1 := by
      split <;> rfl
    rw [hstep] at h
    by_cases hpm : p.1 = m
    · rw [show depsOf ((if p.1 = n then (p.1, if d ∈ p.2 then p.2 else p.2 ++ [d]) else p) ::
            addDep rest n d) m =
          (if p.1 = n then (if d ∈ p.2 then p.2 else p.2 ++ [d]) else p.2) from by
          unfold depsOf
          rw [List.find?_cons_of_pos _ (by simp only [hmask]; simp [hpm])]
          split <;> rfl] at h
      rw [show depsOf (p :: rest) m = p.2 from by
          unfold depsOf
          rw [List.find?_cons_of_pos _ (by simp [hpm])]
          rfl]
      by_cases hpn : p.1 = n
      · rw [if_pos hpn] at h
        by_cases hd : d ∈ p.2
        · rw [if_pos hd] at h; exact Or.inl h
        · rw [if_neg hd] at h
          rcases List.mem_append.mp h with h' | h'
          · exact Or.inl h'
          · exact Or.inr (List.mem_singleton.mp h')
      · rw [if_neg hpn] at h; exact Or.inl h
    · rw [show depsOf ((if p.1 = n then (p.1, if d ∈ p.2 then p.2 else p.2 ++ [d]) else p) ::
            addDep rest n d) m = depsOf (addDep rest n d) m from by
          unfold depsOf
          rw [List.find?_cons_of_neg _ (by simp only [hmask]; simp [hpm])]] at h
      rw [show depsOf (p :: rest) m = depsOf rest m from by
          unfold depsOf
          rw [List.find?_cons_of_neg _ (by simp [hpm])]]
      exact ih h

/-- The inner `for dependency in resource.dependencies` fold of
`buildGraph` keeps the key list. -/
theorem keysOf_depFold (resources : List OCIResource) (nm : String) :
    ∀ (ds : List String) (g : Graph),
      keysOf (ds.foldl
        (fun g d => if resources.any (fun x => x.name = d) then addDep g nm d else g) g) =
      keysOf g := by
  intro ds
  induction ds with
  | nil => intro g; rfl
  | cons d rest ih =>
    intro g
    rw [List.foldl_cons]
    by_cases hc : resources.any (fun x => x.name = d)
    · rw [if_pos hc, ih, keysOf_addDep]
    · rw [if_neg hc, ih]

theorem buildGraph_keys (resources : List OCIResource) :
    keysOf (buildGraph resources) = dedupFirst (resources.map (fun r => r.name)) := by
  unfold buildGraph
  have houter : ∀ (rs : List OCIResource) (g : Graph),
      keysOf (rs.foldl (fun g r => (r.dependencies.getD []).foldl
        (fun g d => if resources.any (fun x => x.name = d) then addDep g r.name d else g) g) g) =
      keysOf g := by
    intro rs
    induction rs with
    | nil => intro g; rfl
    | cons r rest ih =>
      intro g
      rw [List.foldl_cons, ih, keysOf_depFold]
  rw [houter]
  unfold keysOf
  rw [List.map_map]
  exact List.map_id _ ▸ rfl

theorem depsOf_initGraph (names : List String) (m : String) :
    depsOf (names.map (fun n => (n, ([] : List String)))) m = [] := by
  induction names with
  | nil => rfl
  | cons a rest ih =>
    by_cases ham : a = m
    · simp [depsOf, List.find?_cons_of_pos, ham]
    · simpa [depsOf, List.find?_cons_of_neg, ham] using ih

/-- The inner fold only adds dependencies that name an in-batch
resource. -/
theorem depFold_closed (resources : List OCIResource) (nm : String) :
    ∀ (ds : List String) (g : Graph),
      (∀ m x, x ∈ depsOf g m → x ∈ resources.map (fun r => r.name)) →
      ∀ m x, x ∈ depsOf (ds.foldl
        (fun g d => if resources.any (fun y => y.name = d) then addDep g nm d else g) g) m →
        x ∈ resources.map (fun r => r.name) := by
  intro ds
  induction ds with
  | nil => intro g hg; exact hg
  | cons d rest ih =>
    intro g hg
    rw [List.foldl_cons]
    by_cases hc : resources.any (fun y => y.name = d)
    · rw [if_pos hc]
      refine ih _ ?_
      intro m x hx
      rcases depsOf_addDep_mem hx with hx' | rfl
      · exact hg m x hx'
      · obtain ⟨r, hr, hrd⟩ := List.any_eq_true.mp hc
        exact List.mem_map.mpr ⟨r, hr, by simpa using hrd⟩
    · rw [if_neg hc]
      exact ih _ hg

/-- Every dependency stored in the graph names an in-batch resource
(an edge's target is a graph key). -/
theorem buildGraph_closed (resources : List OCIResource) {m x : String}
    (h : x ∈ depsOf (buildGraph resources) m) : x ∈ keysOf (buildGraph resources) := by
  rw [buildGraph_keys, mem_dedupFirst]
  unfold buildGraph at h
  have houter : ∀ (rs : List OCIResource) (g : Graph),
      (∀ m x, x ∈ depsOf g m → x ∈ resources.map (fun r => r.name)) →
      ∀ m x, x ∈ depsOf (rs.foldl (fun g r => (r.dependencies.getD []).foldl
        (fun g d => if resources.any (fun y => y.name = d) then addDep g r.name d else g) g) g) m →
        x ∈ resources.map (fun r => r.name) := by
    intro rs
    induction rs with
    | nil => intro g hg; exact hg
    | cons r rest ih =>
      intro g hg
      rw [List.foldl_cons]
      exact ih _ (depFold_closed resources r.name _ g hg)
  exact houter resources _ (by intro m x hx; rw [depsOf_initGraph] at hx; cases hx) m x h

theorem nodup_buildGraph_keys (resources : List OCIResource) :
    (keysOf (buildGraph resources)).Nodup := by
  rw [buildGraph_keys]; exact nodup_dedupFirst _

theorem key_of_dep {g : Graph} {m x : String} (h : x ∈ depsOf g m) : m ∈ keysOf g := by
  unfold depsOf at h
  cases hf : g.find? (fun p => p.1 = m) with
  | none => rw [hf] at h; cases h
  | some p =>
    have h1 : p.1 = m := by simpa using List.find?_some hf
    exact List.mem_map.mpr ⟨p, List.mem_of_find?_eq_some hf, h1⟩

/-! ## Topological-sort invariants -/

theorem visit_zero (g : Graph) (n : String) (temp : List String) (st : VisitSt) :
    visit g 0 n temp st =
      if n ∈ temp then .error (.cycle n)
      else if n ∈ st.visited then .ok st
      else .error .fuel := rfl

theorem visit_succ (g : Graph) (f : Nat) (n : String) (temp : List String) (st : VisitSt) :
    visit g (f + 1) n temp st =
      if n ∈ temp then .error (.cycle n)
      else if n ∈ st.visited then .ok st
      else
        match visitDepsWith (fun d s => visit g f d (n :: temp) s) (depsOf g n) st with
        | .error e => .error e
        | .ok st' => .ok ⟨n :: st'.visited, st'.order ++ [n]⟩ := rfl

/-- Effect of the dependency loop on the success path, given the effect
of each individual visit. -/
theorem visitDeps_ok_inv (g : Graph) (temp : List String)
    (v : String → VisitSt → Except SortErr VisitSt)
    (hv : ∀ d st st', v d st = .ok st' → IInv g st →
      IInv g st' ∧ d ∈ st'.order ∧ ∃ ext, st'.order = st.order ++ ext ∧ ∀ x ∈ ext, x ∉ temp) :
    ∀ (ds : List String) (st st' : VisitSt),
      visitDepsWith v ds st = .ok st' → IInv g st →
      IInv g st' ∧ (∀ d ∈ ds, d ∈ st'.order) ∧
        ∃ ext, st'.order = st.order ++ ext ∧ ∀ x ∈ ext, x ∉ temp := by
  intro ds
  induction ds with
  | nil =>
    intro st st' h hI
    obtain rfl : st = st' := by injection h
    exact ⟨hI, by simp, [], by simp, by simp⟩
  | cons d rest ih =>
    intro st st' h hI
    rw [show visitDepsWith v (d :: rest) st =
        (match v d st with
         | .error e => .error e
         | .ok st1 => visitDepsWith v rest st1) from rfl] at h
    cases hvd : v d st with
    | error e => rw [hvd] at h; exact Except.noConfusion h
    | ok st1 =>
      rw [hvd] at h
      obtain ⟨hI1, hd1, ext1, hord1, hext1⟩ := hv d st st1 hvd hI
      obtain ⟨hI2, hds2, ext2, hord2, hext2⟩ := ih st1 st' h hI1
      refine ⟨hI2, ?_, ext1 ++ ext2, ?_, ?_⟩
      · intro d' hd'
        rcases List.mem_cons.mp hd' with rfl | hd'
        · rw [hord2]; exact List.mem_append_left _ hd1
        · exact hds2 d' hd'
      · rw [hord2, hord1, List.append_assoc]
      · intro x hx
        rcases List.mem_append.mp hx with hx | hx
        · exact hext1 x hx
        · exact hext2 x hx

/-- On the success path, `visit` preserves the invariant, puts `n` into
the order, only appends to the order, and never appends a name that was
on the `temp_visited` stack. -/
theorem visit_ok_inv (g : Graph) :
    ∀ (fuel : Nat) (n : String) (temp : List String) (st st' : VisitSt),
      visit g fuel n temp st = .ok st' → IInv g st →
      IInv g st' ∧ n ∈ st'.order ∧
        ∃ ext, st'.order = st.order ++ ext ∧ ∀ x ∈ ext, x ∉ temp := by
  intro fuel
  induction fuel with
  | zero =>
    intro n temp st st' h hI
    rw [visit_zero] at h
    by_cases h1 : n ∈ temp
    · rw [if_pos h1] at h; exact Except.noConfusion h
    · rw [if_neg h1] at h
      by_cases h2 : n ∈ st.visited
      · rw [if_pos h2] at h
        obtain rfl : st = st' := by injection h
        exact ⟨hI, (hI.2.1 n).mp h2, [], by simp, by simp⟩
      · rw [if_neg h2] at h; exact Except.noConfusion h
  | succ f ih =>
    intro n temp st st' h hI
    rw [visit_succ] at h
    by_cases h1 : n ∈ temp
    · rw [if_pos h1] at h; exact Except.noConfusion h
    · rw [if_neg h1] at h
      by_cases h2 : n ∈ st.visited
      · rw [if_pos h2] at h
        obtain rfl : st = st' := by injection h
        exact ⟨hI, (hI.2.1 n).mp h2, [], by simp, by simp⟩
      · rw [if_neg h2] at h
        cases hve : visitDepsWith (fun d s => visit g f d (n :: temp) s) (depsOf g n) st with
        | error e => rw [hve] at h; exact Except.noConfusion h
        | ok st1 =>
          rw [hve] at h
          obtain rfl : (⟨n :: st1.visited, st1.order ++ [n]⟩ : VisitSt) = st' := by injection h
          obtain ⟨hI1, hds, ext1, hord1, hext1⟩ :=
            visitDeps_ok_inv g (n :: temp) _
              (fun d stA stB hAB hIA => ih d (n :: temp) stA stB hAB hIA)
              (depsOf g n) st st1 hve hI
          have hnord : n ∉ st.order := fun hmem => h2 ((hI.2.1 n).mpr hmem)
          have hnext : n ∉ ext1 := fun hx => (hext1 n hx) (List.mem_cons_self n temp)
          have hnotin1 : n ∉ st1.order := by
            rw [hord1]
            intro hmem
            rcases List.mem_append.mp hmem with hmem | hmem
            · exact hnord hmem
            · exact hnext hmem
          refine ⟨⟨?_, ?_, ?_⟩, ?_, ext1 ++ [n], ?_, ?_⟩
          · exact List.nodup_append.mpr
              ⟨hI1.1, List.nodup_singleton n, List.disjoint_singleton.mpr hnotin1⟩
          · intro x
            show x ∈ n :: st1.visited ↔ x ∈ st1.order ++ [n]
            rw [List.mem_cons, List.mem_append, List.mem_singleton, hI1.2.1 x, or_comm]
          · intro m hm d hd
            rcases List.mem_append.mp hm with hm1 | hm1
            · obtain ⟨hd_in, hd_lt⟩ := hI1.2.2 m hm1 d hd
              refine ⟨List.mem_append_left _ hd_in, ?_⟩
              rw [List.indexOf_append_of_mem hd_in, List.indexOf_append_of_mem hm1]
              exact hd_lt
            · obtain rfl : m = n := List.mem_singleton.mp hm1
              have hd_in : d ∈ st1.order := hds d hd
              refine ⟨List.mem_append_left _ hd_in, ?_⟩
              rw [List.indexOf_append_of_mem hd_in, List.indexOf_append_of_not_mem hnotin1,
                List.indexOf_cons_self, Nat.add_zero]
              exact List.indexOf_lt_length.mpr hd_in
          · exact List.mem_append_right _ (List.mem_singleton.mpr rfl)
          · rw [hord1, List.append_assoc]
          · intro x hx
            rcases List.mem_append.mp hx with hx | hx
            · exact fun hxt => (hext1 x hx) (List.mem_cons_of_mem n hxt)
            · obtain rfl : x = n := List.mem_singleton.mp hx
              exact h1

/-- Effect of the top-level loop on the success path: the invariant is
preserved and every listed name ends up in the post-order. -/
theorem visitAll_ok_inv (g : Graph) (fuel : Nat) :
    ∀ (ns : List String) (st st' : VisitSt),
      visitAll g fuel ns st = .ok st' → IInv g st →
      IInv g st' ∧ (∀ x ∈ ns, x ∈ st'.order) ∧ ∃ ext, st'.order = st.order ++ ext := by
  intro ns
  induction ns with
  | nil =>
    intro st st' h hI
    obtain rfl : st = st' := by injection h
    exact ⟨hI, by simp, [], by simp⟩
  | cons n rest ih =>
    intro st st' h hI
    rw [show visitAll g fuel (n :: rest) st =
        (match (if n ∈ st.visited then Except.ok st else visit g fuel n [] st) with
         | .error e => .error e
         | .ok st1 => visitAll g fuel rest st1) from rfl] at h
    by_cases h1 : n ∈ st.visited
    · rw [if_pos h1] at h
      obtain ⟨hI2, hr, ext, hext⟩ := ih st st' h hI
      refine ⟨hI2, ?_, ext, hext⟩
      intro x hx
      rcases List.mem_cons.mp hx with rfl | hx
      · rw [hext]; exact List.mem_append_left _ ((hI.2.1 x).mp h1)
      · exact hr x hx
    · rw [if_neg h1] at h
      cases hv : visit g fuel n [] st with
      | error e => rw [hv] at h; exact Except.noConfusion h
      | ok st1 =>
        rw [hv] at h
        obtain ⟨hI1, hn1, ext1, hord1, -⟩ := visit_ok_inv g fuel n [] st st1 hv hI
        obtain ⟨hI2, hr, ext2, hord2⟩ := ih st1 st' h hI1
        refine ⟨hI2, ?_, ext1 ++ ext2, by rw [hord2, hord1, List.append_assoc]⟩
        intro x hx
        rcases List.mem_cons.mp hx with rfl | hx
        · rw [hord2]; exact List.mem_append_left _ hn1
        · exact hr x hx

/-- Walking a dependency chain from a node in the order strictly
decreases the index into the post-order list: the basis for refuting a
cycle on the success path. -/
theorem chain_desc (g : Graph) (ord : List String)
    (h3 : ∀ m ∈ ord, ∀ d ∈ depsOf g m, d ∈ ord ∧ ord.indexOf d < ord.indexOf m) :
    ∀ (l : List String) (a b : String), List.Chain (depRel g) a l → a ∈ ord →
      l.getLast? = some b → b ∈ ord ∧ ord.indexOf b < ord.indexOf a := by
  intro l
  induction l with
  | nil => intro a b _ _ hlast; exact absurd hlast (by simp)
  | cons m rest ih =>
    intro a b hchain ha hlast
    obtain ⟨hrel, hchain'⟩ := List.chain_cons.mp hchain
    obtain ⟨hm, hlt⟩ := h3 a ha m hrel
    cases rest with
    | nil =>
      obtain rfl : m = b := by simpa using hlast
      exact ⟨hm, hlt⟩
    | cons m2 rest2 =>
      rw [List.getLast?_cons_cons] at hlast
      obtain ⟨hb, hblt⟩ := ih m b hchain' hm hlast
      exact ⟨hb, hblt.trans hlt⟩

theorem sortNames_eq (resources : List OCIResource) :
    sortNames resources =
      match visitAll (buildGraph resources)
          (((buildGraph resources).map (fun p => p.1)).length + 1)
          ((buildGraph resources).map (fun p => p.1)) ⟨[], []⟩ with
      | .error e => .error e
      | .ok st => .ok st.order.reverse := rfl

/-- If the sorter succeeds, the dependency graph has no cycle: the
cycle-detection of the DFS is complete. -/
theorem sortNames_ok_no_cycle {resources : List OCIResource} {out : List String}
    (h : sortNames resources = .ok out) : ¬ hasCycle (buildGraph resources) := by
  intro hcyc
  obtain ⟨n, l, hne, hchain, hlast⟩ := hcyc
  rw [sortNames_eq] at h
  cases hva : visitAll (buildGraph resources)
      (((buildGraph resources).map (fun p => p.1)).length + 1)
      ((buildGraph resources).map (fun p => p.1)) ⟨[], []⟩ with
  | error e => rw [hva] at h; exact Except.noConfusion h
  | ok stf =>
    have hIinit : IInv (buildGraph resources) ⟨[], []⟩ := ⟨List.nodup_nil, by simp, by simp⟩
    obtain ⟨hIf, hall, -⟩ := visitAll_ok_inv _ _ _ _ _ hva hIinit
    obtain ⟨m, restl, rfl⟩ : ∃ m restl, l = m :: restl := by
      cases l with
      | nil => exact absurd rfl hne
      | cons x xs => exact ⟨x, xs, rfl⟩
    have hrel : depRel (buildGraph resources) n m := (List.chain_cons.mp hchain).1
    have hkey : n ∈ keysOf (buildGraph resources) := key_of_dep hrel
    have hnord : n ∈ stf.order := hall n hkey
    obtain ⟨-, hlt⟩ := chain_desc _ _ hIf.2.2 (m :: restl) n n hchain hnord hlast
    exact lt_irrefl _ hlt

/-- The dependency loop cannot exhaust fuel if none of its visits can. -/
theorem visitDeps_ne_fuel (v : String → VisitSt → Except SortErr VisitSt) :
    ∀ (ds : List String) (st : VisitSt),
      (∀ d ∈ ds, ∀ st1, v d st1 ≠ .error .fuel) →
      visitDepsWith v ds st ≠ .error .fuel := by
  intro ds
  induction ds with
  | nil => intro st _ hc; exact Except.noConfusion hc
  | cons d rest ih =>
    intro st hv hc
    rw [show visitDepsWith v (d :: rest) st =
        (match v d st with
         | .error e => .error e
         | .ok st1 => visitDepsWith v rest st1) from rfl] at hc
    cases hvd : v d st with
    | error e =>
      rw [hvd] at hc
      injection hc with hc
      subst hc
      exact hv d (List.mem_cons_self d rest) st hvd
    | ok st1 =>
      rw [hvd] at hc
      exact ih st1 (fun d' hd' => hv d' (List.mem_cons_of_mem d hd')) hc

/-- Fuel sufficiency: with fuel covering the yet-unstacked keys, `visit`
never returns the fuel-exhaustion artifact.  Uses that `temp_visited` is
duplicate-free and contained in the (duplicate-free) key list. -/
theorem visit_ne_fuel (g : Graph)
    (hclosed : ∀ m x, x ∈ depsOf g m → x ∈ keysOf g)
    (hnk : (keysOf g).Nodup) :
    ∀ (fuel : Nat) (n : String) (temp : List String) (st : VisitSt),
      temp.Nodup → (∀ x ∈ temp, x ∈ keysOf g) → n ∈ keysOf g →
      (keysOf g).length ≤ fuel + temp.length →
      visit g fuel n temp st ≠ .error .fuel := by
  intro fuel
  induction fuel with
  | zero =>
    intro n temp st htn hts hn hbound
    rw [visit_zero]
    by_cases h1 : n ∈ temp
    · rw [if_pos h1]; simp
    · by_cases h2 : n ∈ st.visited
      · rw [if_neg h1, if_pos h2]; simp
      · exfalso
        have hsub : temp.toFinset ⊆ (keysOf g).toFinset := fun x hx =>
          List.mem_toFinset.mpr (hts x (List.mem_toFinset.mp hx))
        have hcard : (keysOf g).toFinset.card ≤ temp.toFinset.card := by
          rw [List.toFinset_card_of_nodup htn, List.toFinset_card_of_nodup hnk]
          omega
        have heq := Finset.eq_of_subset_of_card_le hsub hcard
        exact h1 (List.mem_toFinset.mp (heq ▸ List.mem_toFinset.mpr hn))
  | succ f ih =>
    intro n temp st htn hts hn hbound
    rw [visit_succ]
    by_cases h1 : n ∈ temp
    · rw [if_pos h1]; simp
    · rw [if_neg h1]
      by_cases h2 : n ∈ st.visited
      · rw [if_pos h2]; simp
      · rw [if_neg h2]
        intro hc
        cases hve : visitDepsWith (fun d s => visit g f d (n :: temp) s) (depsOf g n) st with
        | ok st1 => rw [hve] at hc; exact Except.noConfusion hc
        | error e =>
          rw [hve] at hc
          injection hc with hc
          subst hc
          revert hve
          refine visitDeps_ne_fuel _ (depsOf g n) st ?_
          intro d hd st1
          refine ih d (n :: temp) st1 (List.nodup_cons.mpr ⟨h1, htn⟩) ?_ (hclosed n d hd) ?_
          · intro x hx
            rcases List.mem_cons.mp hx with rfl | hx
            · exact hn
            · exact hts x hx
          · simp only [List.length_cons]
            omega

/-- Fuel sufficiency for the top-level loop with the fuel the sorter
actually passes. -/
theorem visitAll_ne_fuel (g : Graph)
    (hclosed : ∀ m x, x ∈ depsOf g m → x ∈ keysOf g)
    (hnk : (keysOf g).Nodup) :
    ∀ (ns : List String) (st : VisitSt), (∀ x ∈ ns, x ∈ keysOf g) →
      visitAll g ((keysOf g).length + 1) ns st ≠ .error .fuel := by
  intro ns
  induction ns with
  | nil => intro st _ hc; exact Except.noConfusion hc
  | cons n rest ih =>
    intro st hns hc
    rw [show visitAll g ((keysOf g).length + 1) (n :: rest) st =
        (match (if n ∈ st.visited then Except.ok st
                else visit g ((keysOf g).length + 1) n [] st) with
         | .error e => .error e
         | .ok st1 => visitAll g ((keysOf g).length + 1) rest st1) from rfl] at hc
    by_cases h1 : n ∈ st.visited
    · rw [if_pos h1] at hc
      exact ih st (fun x hx => hns x (List.mem_cons_of_mem n hx)) hc
    · rw [if_neg h1] at hc
      cases hv : visit g ((keysOf g).length + 1) n [] st with
      | error e =>
        rw [hv] at hc
        injection hc with hc
        subst hc
        exact visit_ne_fuel g hclosed hnk _ n [] st List.nodup_nil (by simp)
          (hns n (List.mem_cons_self n rest)) (by simp) hv
      | ok st1 =>
        rw [hv] at hc
        exact ih st1 (fun x hx => hns x (List.mem_cons_of_mem n hx)) hc

/-- A name found on the `temp_visited` stack while being visited again
lies on a dependency cycle: the stack is a dependency chain and the
current call closes it. -/
theorem stack_cycle (g : Graph) {temp : List String} {n : String}
    (hstack : StackInv g temp)
    (hhead : ∃ h0 t0, temp = h0 :: t0 ∧ n ∈ depsOf g h0)
    (hmem : n ∈ temp) : onCycle g n := by
  obtain ⟨h0, t0, htemp, hdep⟩ := hhead
  obtain ⟨pre, suf, hps⟩ := List.append_of_mem hmem
  have hsplit : temp = (pre ++ [n]) ++ suf := by rw [hps]; simp
  have hpre : List.Chain' (fun a b => a ∈ depsOf g b) (pre ++ [n]) :=
    (List.chain'_append.mp (hsplit ▸ hstack)).1
  have hrev : List.Chain' (depRel g) (n :: pre.reverse) := by
    have hr := List.chain'_reverse.mpr hpre
    rwa [List.reverse_append, List.reverse_singleton] at hr
  have hheadeq : (pre ++ [n]).head? = some h0 := by
    have h1 : temp.head? = some h0 := by rw [htemp]; rfl
    rw [hsplit, List.head?_append_of_ne_nil _ (by simp)] at h1
    exact h1
  have hfull : List.Chain' (depRel g) ((n :: pre.reverse) ++ [n]) := by
    refine List.chain'_append.mpr ⟨hrev, List.chain'_singleton n, ?_⟩
    intro x hx y hy
    have hy' : y = n := by
      have hny : n = y := by simpa using hy
      exact hny.symm
    have hx' : (pre ++ [n]).head? = some x := by
      have hgl : (n :: pre.reverse).getLast? = some x := by simpa using hx
      rw [show (n :: pre.reverse : List String) = (pre ++ [n]).reverse from by
        rw [List.reverse_append, List.reverse_singleton]; rfl] at hgl
      rwa [List.getLast?_reverse] at hgl
    have hx0 : x = h0 := by
      rw [hheadeq] at hx'
      injection hx' with hxx
      exact hxx.symm
    rw [hy', hx0]
    exact hdep
  refine ⟨pre.reverse ++ [n], by simp, ?_, by simp⟩
  exact hfull

/-- Propagation of a raised cycle error through the dependency loop. -/
theorem visitDeps_cycle (g : Graph) (v : String → VisitSt → Except SortErr VisitSt) :
    ∀ (ds : List String) (st : VisitSt) (m : String),
      (∀ d ∈ ds, ∀ st1 m1, v d st1 = .error (.cycle m1) → onCycle g m1) →
      visitDepsWith v ds st = .error (.cycle m) → onCycle g m := by
  intro ds
  induction ds with
  | nil => intro st m _ hc; exact Except.noConfusion hc
  | cons d rest ih =>
    intro st m hv hc
    rw [show visitDepsWith v (d :: rest) st =
        (match v d st with
         | .error e => .error e
         | .ok st1 => visitDepsWith v rest st1) from rfl] at hc
    cases hvd : v d st with
    | error e =>
      rw [hvd] at hc
      injection hc with hc
      subst hc
      exact hv d (List.mem_cons_self d rest) st m hvd
    | ok st1 =>
      rw [hvd] at hc
      exact ih st1 m (fun d' hd' => hv d' (List.mem_cons_of_mem d hd')) hc

/-- Every cycle error raised by `visit` names a resource that lies on a
dependency cycle of the graph. -/
theorem visit_cycle_participant (g : Graph) :
    ∀ (fuel : Nat) (n : String) (temp : List String) (st : VisitSt) (m : String),
      StackInv g temp → (temp = [] ∨ ∃ h0 t0, temp = h0 :: t0 ∧ n ∈ depsOf g h0) →
      visit g fuel n temp st = .error (.cycle m) → onCycle g m := by
  intro fuel
  induction fuel with
  | zero =>
    intro n temp st m hstack hhead h
    rw [visit_zero] at h
    by_cases h1 : n ∈ temp
    · rw [if_pos h1] at h
      injection h with h
      obtain rfl : n = m := by injection h
      rcases hhead with rfl | hhead
      · cases h1
      · exact stack_cycle g hstack hhead h1
    · rw [if_neg h1] at h
      by_cases h2 : n ∈ st.visited
      · rw [if_pos h2] at h; exact Except.noConfusion h
      · rw [if_neg h2] at h
        injection h with h
        exact SortErr.noConfusion h
  | succ f ih =>
    intro n temp st m hstack hhead h
    rw [visit_succ] at h
    by_cases h1 : n ∈ temp
    · rw [if_pos h1] at h
      injection h with h
      obtain rfl : n = m := by injection h
      rcases hhead with rfl | hhead
      · cases h1
      · exact stack_cycle g hstack hhead h1
    · rw [if_neg h1] at h
      by_cases h2 : n ∈ st.visited
      · rw [if_pos h2] at h; exact Except.noConfusion h
      · rw [if_neg h2] at h
        cases hve : visitDepsWith (fun d s => visit g f d (n :: temp) s) (depsOf g n) st with
        | ok st1 => rw [hve] at h; exact Except.noConfusion h
        | error e =>
          rw [hve] at h
          injection h with h
          subst h
          refine visitDeps_cycle g _ (depsOf g n) st m ?_ hve
          intro d hd st1 m1 hvd
          refine ih d (n :: temp) st1 m1 ?_ ?_ hvd
          · show List.Chain' (fun a b => a ∈ depsOf g b) (n :: temp)
            refine List.chain'_cons'.mpr ⟨?_, hstack⟩
            intro y hy
            rcases hhead with rfl | ⟨h0, t0, rfl, hdep⟩
            · cases hy
            · obtain rfl : h0 = y := by simpa using hy
              exact hdep
          · exact Or.inr ⟨n, temp, rfl, hd⟩

/-- Propagation through the top-level loop. -/
theorem visitAll_cycle (g : Graph) (fuel : Nat) :
    ∀ (ns : List String) (st : VisitSt) (m : String),
      visitAll g fuel ns st = .error (.cycle m) → onCycle g m := by
  intro ns
  induction ns with
  | nil => intro st m hc; exact Except.noConfusion hc
  | cons n rest ih =>
    intro st m hc
    rw [show visitAll g fuel (n :: rest) st =
        (match (if n ∈ st.visited then Except.ok st else visit g fuel n [] st) with
         | .error e => .error e
         | .ok st1 => visitAll g fuel rest st1) from rfl] at hc
    by_cases h1 : n ∈ st.visited
    · rw [if_pos h1] at hc
      exact ih st m hc
    · rw [if_neg h1] at hc
      cases hv : visit g fuel n [] st with
      | error e =>
        rw [hv] at hc
        injection hc with hc
        subst hc
        exact visit_cycle_participant g fuel n [] st m
          (by exact List.chain'_nil) (Or.inl rfl) hv
      | ok st1 =>
        rw [hv] at hc
        exact ih st1 m hc

/-- On a cyclic batch the sorter raises the circular-dependency error,
naming a resource that lies on a cycle. -/
theorem sortNames_cyclic {resources : List OCIResource}
    (hcyc : hasCycle (buildGraph resources)) :
    ∃ m, sortNames resources = .error (.cycle m) ∧ onCycle (buildGraph resources) m := by
  cases hs : sortNames resources with
  | ok out => exact absurd hcyc (sortNames_ok_no_cycle hs)
  | error e =>
    have he : ∃ m, e = SortErr.cycle m := by
      cases e with
      | cycle m => exact ⟨m, rfl⟩
      | fuel =>
        exfalso
        rw [sortNames_eq] at hs
        cases hva : visitAll (buildGraph resources)
            (((buildGraph resources).map (fun p => p.1)).length + 1)
            ((buildGraph resources).map (fun p => p.1)) ⟨[], []⟩ with
        | ok stf => rw [hva] at hs; exact Except.noConfusion hs
        | error e' =>
          rw [hva] at hs
          injection hs with hs
          subst hs
          exact visitAll_ne_fuel (buildGraph resources)
            (fun m x hx => buildGraph_closed resources hx)
            (nodup_buildGraph_keys resources) _ ⟨[], []⟩ (fun x hx => hx) hva
    obtain ⟨m, rfl⟩ := he
    refine ⟨m, rfl, ?_⟩
    rw [sortNames_eq] at hs
    cases hva : visitAll (buildGraph resources)
        (((buildGraph resources).map (fun p => p.1)).length + 1)
        ((buildGraph resources).map (fun p => p.1)) ⟨[], []⟩ with
    | ok stf => rw [hva] at hs; exact Except.noConfusion hs
    | error e' =>
      rw [hva] at hs
      injection hs with hs
      subst hs
      exact visitAll_cycle (buildGraph resources) _ _ ⟨[], []⟩ m hva

/-! ## Claim theorems -/

/-- C1. The ordering operation is claimed to place every resource after
its in-batch dependencies; on the chain `A`, `B→A`, `C→B`, `D→C` the
code instead returns `[D, C, B, A]`: the DFS post-order already lists
dependencies first, and the final `reversed(order)` inverts it, so every
resource is returned *before* its dependencies.  This theorem evaluates
the embedded sorter at that failing input. -/
theorem c1_sorter_returns_dependents_first :
    sortNames [chainResA, chainResB, chainResC, chainResD] = .ok ["D", "C", "B", "A"] ∧
    sortResourcesByDependencies [chainResA, chainResB, chainResC, chainResD] =
      .ok [chainResD, chainResC, chainResB, chainResA] :=
  ⟨rfl, rfl⟩

/-- C2. The request-status map is claimed to be process-wide, but each
endpoint handler in `api/router.py` constructs a fresh
`ResourceProvisioner()` whose `provisioning_requests` dict is empty: the
provision endpoint does write a completed state into its own instance
store, yet a subsequent exposed status call reads a different, empty
store and always returns the not-found sentinel. -/
theorem c2_exposed_status_always_not_found :
    (((provisionEndpoint implProv "req-2" [computeRes1]).2.1).get "req-2").map
        (fun s => s.status) = some "completed" ∧
    statusEndpoint "req-2" =
      { request_id := "req-2", status := "not_found",
        message := some "No provisioning request found with ID req-2",
        progress := 0, resources := [] } :=
  ⟨rfl, rfl⟩

/-- C9. Scenario 2: the conversation mentioning "e-commerce store",
"database", "moderate traffic" and "500GB" extracts
website_type="ecommerce", database_kind="general", storage=500,
traffic="medium"; the recommendation batch contains a "WebsiteDB" entry
depending on "WebsiteVCN" and a "WebsiteStorage" entry sized
max(50,500) = 500 GB (the ecommerce floor of 100 does not reduce it). -/
theorem c9_ecommerce_scenario :
    extractInformation c9Conversation =
      { website_type := some "ecommerce", expected_traffic := some "medium",
        database_needs := some "general", storage_requirements := some 500 } ∧
    ((analyzeRequirements c9Conversation).find? (fun r => r.name = "WebsiteDB")).map
        (fun r => r.dependencies) = some (some ["WebsiteVCN"]) ∧
    ((analyzeRequirements c9Conversation).find? (fun r => r.name = "WebsiteStorage")).map
        (fun r => specFind r.specifications "size_in_gbs") = some (some (.nat 500)) ∧
    max 50 500 = 500 :=
  ⟨rfl, rfl, rfl, rfl⟩

/-- C3 counterexample: after two provisioning calls with the same
request id (through the shared instance store), the stored outcome list
has 2 entries, while a single call stores exactly 1 — the second call
did not overwrite the prior outcomes with its own. -/
theorem c3_counterexample :
    ((((provisionResources implProv (provisionResources implProv [] "req-3" [computeRes1]).2.1
        "req-3" [computeRes1]).2.1).get "req-3").map (fun s => s.resources.length) = some 2) ∧
    ((((provisionResources implProv [] "req-3" [computeRes1]).2.1).get "req-3").map
        (fun s => s.resources.length) = some 1) :=
  ⟨rfl, rfl⟩

/-- C3 (amended). Calling provision twice with the same request_id
re-runs provisioning but *appends* to the prior outcomes: after the
second call the stored resource-outcome list is the concatenation of
both calls' outcome lists (the entry is reused, not reset). -/
theorem c3_second_call_concatenates (provOne : ProvFn) (store : Store) (rid : String)
    (resources l : List OCIResource)
    (h0 : store.get rid = none)
    (hsort : sortResourcesByDependencies resources = .ok l) :
    ((provisionResources provOne
        (provisionResources provOne store rid resources).2.1 rid resources).2.1).get rid =
      some { status := "completed",
             resources := l.map (outcomeOf provOne) ++ l.map (outcomeOf provOne),
             progress := 100 } := by
  have h1 := provision_get_fresh provOne store rid resources l h0 hsort
  exact provision_get_existing provOne _ rid resources l _ h1 hsort

/-- C3 witness: two calls for the same fresh request id on a one-element
batch leave 1 + 1 = 2 stored outcomes. -/
theorem c3_witness :
    ((provisionResources implProv
        (provisionResources implProv [] "req-3" [computeRes1]).2.1
        "req-3" [computeRes1]).2.1).get "req-3" =
      some { status := "completed",
             resources :=
               [computeRes1].map (outcomeOf implProv) ++ [computeRes1].map (outcomeOf implProv),
             progress := 100 } :=
  c3_second_call_concatenates implProv [] "req-3" [computeRes1] [computeRes1] rfl rfl

/-- C5. For every batch that orders successfully, each resource whose
provisioning raises an error is recorded as a failed outcome capturing
the error message, every resource of the ordered batch gets exactly one
outcome record, and after the loop the stored state is
status="completed" with progress exactly 100. -/
theorem c5_partial_failure_tolerated (provOne : ProvFn) (store : Store) (rid : String)
    (resources l : List OCIResource)
    (h0 : store.get rid = none)
    (hsort : sortResourcesByDependencies resources = .ok l) :
    (((provisionResources provOne store rid resources).2.1).get rid =
      some { status := "completed",
             resources := l.map (outcomeOf provOne), progress := 100 }) ∧
    (l.map (outcomeOf provOne)).length = l.length ∧
    (∀ r e, r ∈ l → provOne r = .error e →
      ({ name := r.name, type := r.resource_type, status := "failed",
         error := some e } : RequestOutcome) ∈ l.map (outcomeOf provOne)) := by
  refine ⟨provision_get_fresh provOne store rid resources l h0 hsort, by simp, ?_⟩
  intro r e hr he
  exact List.mem_map.mpr ⟨r, hr, by simp [outcomeOf, he]⟩

/-- C5 witness, scenario 5: a 3-resource batch whose middle resource (in
provisioning order) has the handler-less kind `kubernetes`; the stored
state has 3 outcomes — active, failed with the captured `ValueError`
message, active — with status "completed" and progress 100. -/
theorem c5_witness :
    ((provisionResources implProv [] "req-5" [computeRes1, kubRes, computeRes2]).2.1).get
        "req-5" =
      some { status := "completed",
             resources :=
               [{ name := "Web2", type := "compute", status := "active",
                  ocid := some "ocid1.compute.oc1..aaaaaaaa" },
                { name := "Cluster", type := "kubernetes", status := "failed",
                  error := some "Unsupported resource type: kubernetes" },
                { name := "Web1", type := "compute", status := "active",
                  ocid := some "ocid1.compute.oc1..aaaaaaaa" }],
             progress := 100 } :=
  (c5_partial_failure_tolerated implProv [] "req-5" [computeRes1, kubRes, computeRes2]
    [computeRes2, kubRes, computeRes1] rfl rfl).1

/-- C7. Within a single completed provisioning call, the successive
values written to the request's progress field are monotonically
non-decreasing, the last written value is exactly 100, and the stored
progress ends at exactly 100 (even when some resources failed). -/
theorem c7_progress_monotone (provOne : ProvFn) (store : Store) (rid : String)
    (resources l : List OCIResource)
    (hsort : sortResourcesByDependencies resources = .ok l) :
    List.Chain' (· ≤ ·) (provisionResources provOne store rid resources).2.2 ∧
    (provisionResources provOne store rid resources).2.2.getLast? = some 100 ∧
    (((provisionResources provOne store rid resources).2.1).get rid).map
      (fun s => s.progress) = some 100 := by
  have htr := provision_trace provOne store rid resources l hsort
  set n := l.length with hn
  set f : Nat → ℚ := fun (j : Nat) => ((j : ℚ) / (n : ℚ)) * 100 with hf
  have hbounds : ∀ x ∈ (List.range' 0 n).map f, 0 ≤ x ∧ x ≤ 100 := by
    intro x hx
    obtain ⟨j, hj, rfl⟩ := List.mem_map.mp hx
    have hjn : j < n := by
      have := List.mem_range'_1.mp hj
      omega
    have hnpos : (0 : ℚ) < n := by
      have : 0 < n := by omega
      exact_mod_cast this
    constructor
    · positivity
    · have h1 : ((j : ℚ) / (n : ℚ)) ≤ 1 := by
        rw [div_le_one hnpos]
        exact_mod_cast hjn.le
      calc ((j : ℚ) / (n : ℚ)) * 100 ≤ 1 * 100 :=
            mul_le_mul_of_nonneg_right h1 (by norm_num)
        _ = 100 := by norm_num
  have hpw : ((List.range' 0 n).map f).Pairwise (· ≤ ·) := by
    rw [List.pairwise_map]
    refine (List.pairwise_lt_range' 0 n 1).imp ?_
    intro a b hab
    exact mul_le_mul_of_nonneg_right
      (div_le_div_of_nonneg_right (by exact_mod_cast hab.le) (by positivity)) (by norm_num)
  have hall : ((if (store.get rid).isSome then ([] : List ℚ) else [0]) ++
      ((List.range' 0 n).map f ++ [100])).Pairwise (· ≤ ·) := by
    refine List.pairwise_append.mpr ⟨?_, ?_, ?_⟩
    · split <;> simp
    · refine List.pairwise_append.mpr ⟨hpw, by simp, ?_⟩
      intro a ha b hb
      rw [List.mem_singleton] at hb
      subst hb
      exact (hbounds a ha).2
    · intro a ha b hb
      have ha0 : a = 0 := by
        revert ha
        split <;> simp_all
      subst ha0
      rcases List.mem_append.mp hb with hb | hb
      · exact (hbounds b hb).1
      · rw [List.mem_singleton] at hb; subst hb; norm_num
  refine ⟨?_, ?_, ?_⟩
  · rw [htr, List.append_assoc]
    exact hall.chain'
  · rw [htr]
    exact List.getLast?_concat _
  · cases h0 : store.get rid with
    | none => rw [provision_get_fresh provOne store rid resources l h0 hsort]; rfl
    | some s => rw [provision_get_existing provOne store rid resources l s h0 hsort]; rfl

/-- C7 witness at the 3-resource batch with a failing middle resource. -/
theorem c7_witness :
    List.Chain' (· ≤ ·)
      (provisionResources implProv [] "req-7" [computeRes1, kubRes, computeRes2]).2.2 ∧
    (provisionResources implProv [] "req-7" [computeRes1, kubRes, computeRes2]).2.2.getLast? =
      some 100 ∧
    (((provisionResources implProv [] "req-7" [computeRes1, kubRes, computeRes2]).2.1).get
        "req-7").map (fun s => s.progress) = some 100 :=
  c7_progress_monotone implProv [] "req-7" [computeRes1, kubRes, computeRes2]
    [computeRes2, kubRes, computeRes1] rfl

/-- C10. The list returned by `provision_resources` contains exactly the
successfully provisioned resources in provisioning order (failures are
recorded only in the stored state, which gets one outcome per ordered
resource), so the returned list can be strictly shorter than the batch. -/
theorem c10_returned_list_omits_failures (provOne : ProvFn) (store : Store) (rid : String)
    (resources l : List OCIResource)
    (hsort : sortResourcesByDependencies resources = .ok l) :
    ((provisionResources provOne store rid resources).1 =
      .ok (l.filterMap (fun r => (provOne r).toOption))) ∧
    (store.get rid = none →
      (((provisionResources provOne store rid resources).2.1).get rid).map
        (fun s => s.resources.length) = some l.length) ∧
    (l.filterMap (fun r => (provOne r).toOption)).length ≤ l.length := by
  refine ⟨provision_result provOne store rid resources l hsort, ?_, List.length_filterMap_le _ _⟩
  intro h0
  rw [provision_get_fresh provOne store rid resources l h0 hsort]
  simp

/-- C10 witness: in the failing 3-resource batch the returned list has
the 2 successes in order while the stored state records 3 outcomes —
the returned list is strictly shorter than the input batch. -/
theorem c10_witness :
    ((provisionResources implProv [] "req-10" [computeRes1, kubRes, computeRes2]).1 =
      .ok ([computeRes2, kubRes, computeRes1].filterMap
        (fun r => (implProv r).toOption))) ∧
    ((((provisionResources implProv [] "req-10" [computeRes1, kubRes, computeRes2]).2.1).get
        "req-10").map (fun s => s.resources.length) = some 3) ∧
    ([computeRes2, kubRes, computeRes1].filterMap (fun r => (implProv r).toOption)).length = 2 ∧
    ((provisionResources implProv [] "req-10" [computeRes1, kubRes, computeRes2]).1).map
      (fun ps => ps.map (fun p => p.name)) = .ok ["Web2", "Web1"] :=
  ⟨(c10_returned_list_omits_failures implProv [] "req-10" [computeRes1, kubRes, computeRes2]
      [computeRes2, kubRes, computeRes1] rfl).1,
   (c10_returned_list_omits_failures implProv [] "req-10" [computeRes1, kubRes, computeRes2]
      [computeRes2, kubRes, computeRes1] rfl).2.1 rfl,
   rfl, rfl⟩

/-- C4 counterexample: on the cyclic batch X→Y, Y→X with a fresh
request id, the call does fail with the cycle error naming a
participant and stores zero outcomes, but the freshly created store
entry is left with status "in_progress" — it is neither absent nor
marked failed, contradicting the claim. -/
theorem c4_counterexample :
    (provisionResources implProv [] "req-4" [cycResX, cycResY]).1 =
      .error (.cycle "X") ∧
    ((provisionResources implProv [] "req-4" [cycResX, cycResY]).2.1).get "req-4" =
      some { status := "in_progress", resources := [], progress := 0 } ∧
    ("in_progress" : String) ≠ "failed" ∧
    SortErr.message (.cycle "X") = "Circular dependency detected for X" :=
  ⟨rfl, rfl, by decide, rfl⟩

/-- C4 (amended). For every batch whose in-batch dependency edges
contain a cycle, the provisioning call fails with a cycle error naming
a cycle participant, no provisioning side effect occurs and zero
outcome records are appended: the store either remains exactly as
before the call (request id already present) or gains a freshly
initialised entry with no outcomes — which is left with status
"in_progress", not marked failed. -/
theorem c4_cycle_aborts (provOne : ProvFn) (store : Store) (rid : String)
    (resources : List OCIResource)
    (hcyc : hasCycle (buildGraph resources)) :
    ∃ name, onCycle (buildGraph resources) name ∧
      (provisionResources provOne store rid resources).1 = .error (.cycle name) ∧
      (provisionResources provOne store rid resources).2.1 =
        (if (store.get rid).isSome then store
         else store.set rid { status := "in_progress", resources := [], progress := 0 }) := by
  obtain ⟨m, hserr, honc⟩ := sortNames_cyclic hcyc
  refine ⟨m, honc, ?_, ?_⟩
  · by_cases h0 : (store.get rid).isSome <;>
      simp [provisionResources, sortResourcesByDependencies, hserr, Except.map, h0]
  · by_cases h0 : (store.get rid).isSome <;>
      simp [provisionResources, sortResourcesByDependencies, hserr, Except.map, h0]

/-- C4 witness at the concrete cyclic batch X→Y, Y→X. -/
theorem c4_witness :
    ∃ name, onCycle (buildGraph [cycResX, cycResY]) name ∧
      (provisionResources implProv [] "req-4w" [cycResX, cycResY]).1 =
        .error (.cycle name) ∧
      (provisionResources implProv [] "req-4w" [cycResX, cycResY]).2.1 =
        (if (Store.get [] "req-4w").isSome then ([] : Store)
         else Store.set [] "req-4w"
           { status := "in_progress", resources := [], progress := 0 }) :=
  c4_cycle_aborts implProv [] "req-4w" [cycResX, cycResY]
    ⟨"X", ["Y", "X"], by decide,
      List.Chain.cons (by decide) (List.Chain.cons (by decide) List.Chain.nil), by decide⟩

/-- C6. Under website_type="ecommerce" and traffic_level="high" the
compute sizing takes max-floors — cores = max(2,4) = 4 and memory =
max(16,32) = 32, at least what either signal alone yields — while the
database sizing under traffic_level="high" is overwritten to exactly
cpu_core_count = 2 and storage_in_tbs = 2: the two policies are
asymmetric. -/
theorem c6_compute_floor_vs_db_overwrite (info : ExtractedInfo)
    (hweb : info.website_type = some "ecommerce")
    (htr : info.expected_traffic = some "high") :
    ((determineComputeRequirements info).ocpus = max 2 4 ∧
      (determineComputeRequirements info).memory_in_gbs = max 16 32) ∧
    ((determineComputeRequirements { info with expected_traffic := none }).ocpus ≤
        (determineComputeRequirements info).ocpus ∧
      (determineComputeRequirements { info with website_type := none }).ocpus ≤
        (determineComputeRequirements info).ocpus ∧
      (determineComputeRequirements { info with expected_traffic := none }).memory_in_gbs ≤
        (determineComputeRequirements info).memory_in_gbs ∧
      (determineComputeRequirements { info with website_type := none }).memory_in_gbs ≤
        (determineComputeRequirements info).memory_in_gbs) ∧
    (∀ dr, determineDatabaseRequirements info = some dr →
      dr.cpu_core_count = 2 ∧ dr.storage_in_tbs = 2) := by
  refine ⟨⟨?_, ?_⟩, ⟨?_, ?_, ?_, ?_⟩, ?_⟩
  all_goals try
    (simp [determineComputeRequirements, hweb, htr];
      try (split <;> (try split) <;> simp))
  · intro dr h
    unfold determineDatabaseRequirements at h
    rcases hdb : info.database_needs with _ | kind <;> rw [hdb] at h
    · simp at h
    · rw [htr] at h
      simp only [reduceIte, Option.some.injEq] at h
      subst h
      exact ⟨rfl, rfl⟩

/-- C6 witness at the concrete combined-signal input. -/
theorem c6_witness :
    ((determineComputeRequirements c6Info).ocpus = max 2 4 ∧
      (determineComputeRequirements c6Info).memory_in_gbs = max 16 32) ∧
    ((determineComputeRequirements { c6Info with expected_traffic := none }).ocpus ≤
        (determineComputeRequirements c6Info).ocpus ∧
      (determineComputeRequirements { c6Info with website_type := none }).ocpus ≤
        (determineComputeRequirements c6Info).ocpus ∧
      (determineComputeRequirements { c6Info with expected_traffic := none }).memory_in_gbs ≤
        (determineComputeRequirements c6Info).memory_in_gbs ∧
      (determineComputeRequirements { c6Info with website_type := none }).memory_in_gbs ≤
        (determineComputeRequirements c6Info).memory_in_gbs) ∧
    (∀ dr, determineDatabaseRequirements c6Info = some dr →
      dr.cpu_core_count = 2 ∧ dr.storage_in_tbs = 2) :=
  c6_compute_floor_vs_db_overwrite c6Info rfl rfl

/-- C8 counterexample: the claim asserts that any conversation whose
combined text contains "static" or "simple" gets website_type="static",
but the pattern requires the keyword to be followed by whitespace and a
site word; the text "simple" alone sets nothing. -/
theorem c8_counterexample :
    ("simple".data <:+: lowerChars (fullText [{ role := "user", content := "simple" }])) ∧
    (extractInformation [{ role := "user", content := "simple" }]).website_type ≠ some "static" :=
  ⟨by decide, by decide⟩

/-- C8 (amended). Website-type extraction evaluates the five pattern
groups in the priority order static → dynamic → ecommerce → blog → api
and the first matching pattern wins; the static/dynamic keywords only
match when followed by whitespace and a site word (website/site/web
page resp. web application), and a text matching none of the groups
leaves the field unset. -/
theorem c8_first_match_priority (ctx : List ConversationMessage) :
    (staticSiteRex.research (lowerChars (fullText ctx)) = true →
      (extractInformation ctx).website_type = some "static") ∧
    (staticSiteRex.research (lowerChars (fullText ctx)) = false →
      dynamicSiteRex.research (lowerChars (fullText ctx)) = true →
      (extractInformation ctx).website_type = some "dynamic") ∧
    (staticSiteRex.research (lowerChars (fullText ctx)) = false →
      dynamicSiteRex.research (lowerChars (fullText ctx)) = false →
      ecommerceRex.research (lowerChars (fullText ctx)) = true →
      (extractInformation ctx).website_type = some "ecommerce") ∧
    (staticSiteRex.research (lowerChars (fullText ctx)) = false →
      dynamicSiteRex.research (lowerChars (fullText ctx)) = false →
      ecommerceRex.research (lowerChars (fullText ctx)) = false →
      blogRex.research (lowerChars (fullText ctx)) = true →
      (extractInformation ctx).website_type = some "blog") ∧
    (staticSiteRex.research (lowerChars (fullText ctx)) = false →
      dynamicSiteRex.research (lowerChars (fullText ctx)) = false →
      ecommerceRex.research (lowerChars (fullText ctx)) = false →
      blogRex.research (lowerChars (fullText ctx)) = false →
      apiRex.research (lowerChars (fullText ctx)) = true →
      (extractInformation ctx).website_type = some "api") ∧
    (staticSiteRex.research (lowerChars (fullText ctx)) = false →
      dynamicSiteRex.research (lowerChars (fullText ctx)) = false →
      ecommerceRex.research (lowerChars (fullText ctx)) = false →
      blogRex.research (lowerChars (fullText ctx)) = false →
      apiRex.research (lowerChars (fullText ctx)) = false →
      (extractInformation ctx).website_type = none) := by
  refine ⟨?_, ?_, ?_, ?_, ?_, ?_⟩ <;> intros <;>
    simp [extractInformation, websitePatterns, firstMatchVal, *]

/-- C8 witness: "static website" yields static; an unmatched text yields
an unset website type. -/
theorem c8_witness :
    (extractInformation [{ role := "user", content := "static website" }]).website_type =
      some "static" ∧
    (extractInformation [{ role := "user", content := "hello there" }]).website_type = none :=
  ⟨(c8_first_match_priority [{ role := "user", content := "static website" }]).1 rfl,
   (c8_first_match_priority [{ role := "user", content := "hello there" }]).2.2.2.2.2
     rfl rfl rfl rfl rfl⟩

end OciMcp
